import Mathlib

/- Verification of the Blender2SkyCiv mesh-to-structural-model pipeline
   (src/Blender2SkyCiv.py). Shallow embedding: Python floats are modelled
   as real numbers, Python dicts as insertion-ordered association lists,
   exceptions raised inside `calculate_normal` (and caught by the caller)
   as an `Option` result. -/

set_option maxHeartbeats 1000000

/-- Python dict assignment `d[k] = v` on an insertion-ordered association
    list: replaces the value when the key is already present, appends a new
    entry otherwise (so `len` grows only on a fresh key, as in Python). -/
def dinsert {κ α : Type} [DecidableEq κ] (d : List (κ × α)) (k : κ) (v : α) :
    List (κ × α) :=
  if k ∈ d.map Prod.fst then d.map (fun p => if p.1 = k then (k, v) else p)
  else d ++ [(k, v)]

/-- Helper for `splitComma`: `acc` is the current chunk, reversed. -/
def splitCommaAux : List Char → List Char → List String
  | [], acc => [String.mk acc.reverse]
  | c :: cs, acc =>
    if c = ',' then String.mk acc.reverse :: splitCommaAux cs []
    else splitCommaAux cs (c :: acc)

/-- Python `s.split(',')`. -/
def splitComma (s : String) : List String := splitCommaAux s.data []

/-- Python `','.join(l)`. -/
def joinComma : List String → String
  | [] => ""
  | [s] => s
  | s :: rest => s ++ "," ++ joinComma rest

/-- Numeric value of a decimal digit character. -/
def digitVal (c : Char) : ℕ := c.toNat - 48

/-- Helper for `strToNat`: left-to-right accumulation of decimal digits. -/
def strToNatAux : List Char → ℕ → ℕ
  | [], acc => acc
  | c :: cs, acc => strToNatAux cs (acc * 10 + digitVal c)

/-- Python `int(s)` for the nonnegative decimal strings this pipeline
    produces (on other strings Python raises ValueError, which never
    happens for pipeline-generated node strings). -/
def strToNat (s : String) : ℕ := strToNatAux s.data 0

/-- Decimal digits of `n`, most significant first; `fuel` bounds the
    recursion depth (`fuel = n + 1` always suffices). -/
def toDigitsAux : ℕ → ℕ → List Char
  | 0, _ => []
  | fuel + 1, n =>
    if n < 10 then [Nat.digitChar n]
    else toDigitsAux fuel (n / 10) ++ [Nat.digitChar (n % 10)]

/-- Python `str(n)` for a natural number. -/
def natToStr (n : ℕ) : String := String.mk (toDigitsAux (n + 1) n)

/-- A 3D coordinate (a Blender `Vector` / list of three floats). -/
structure Vec3 where
  x : ℝ
  y : ℝ
  z : ℝ

/-- Componentwise difference `[a[i] - b[i] for i in range(3)]`. -/
def vsub (a b : Vec3) : Vec3 := ⟨a.x - b.x, a.y - b.y, a.z - b.z⟩

/-- The cross-product formula used in `calculate_normal`. -/
def cross (a b : Vec3) : Vec3 :=
  ⟨a.y * b.z - a.z * b.y, a.z * b.x - a.x * b.z, a.x * b.y - a.y * b.x⟩

/-- Euclidean inner product, used to state perpendicularity. -/
def dot (a b : Vec3) : ℝ := a.x * b.x + a.y * b.y + a.z * b.z

/-- The `calculate_normal` function: normalized cross product of
    `(v2 - v1)` and `(v3 - v1)`. A list that is not exactly three vertices
    makes the unpacking `v1, v2, v3 = vertices` raise ValueError, and a
    zero-length normal makes the division raise ZeroDivisionError; both
    exceptions are modelled as `none`. -/
noncomputable def calculate_normal (vertices : List Vec3) : Option Vec3 :=
  match vertices with
  | [v1, v2, v3] =>
    let vector1 := vsub v2 v1
    let vector2 := vsub v3 v1
    let normal := cross vector1 vector2
    let norm_length := Real.sqrt (normal.x ^ 2 + normal.y ^ 2 + normal.z ^ 2)
    if norm_length = 0 then none
    else some ⟨normal.x / norm_length, normal.y / norm_length, normal.z / norm_length⟩
  | _ => none

/-- `math.atan2 y x`: the angle of the point `(x, y)` in `(-π, π]`,
    modelled by the complex argument. -/
noncomputable def atan2 (y x : ℝ) : ℝ := Complex.arg ⟨x, y⟩

/-- The `determine_load_direction` function: normalize, take the XY-plane
    angle in degrees, and bucket it. -/
noncomputable def determine_load_direction (normal : Vec3) : String :=
  let norm_length := Real.sqrt (normal.x ^ 2 + normal.y ^ 2 + normal.z ^ 2)
  let normalized_normal : Vec3 :=
    ⟨normal.x / norm_length, normal.y / norm_length, normal.z / norm_length⟩
  let angle := atan2 normalized_normal.y normalized_normal.x * (180 / Real.pi)
  if -45 ≤ angle ∧ angle < 45 then "X"
  else if 45 ≤ angle ∧ angle < 135 then "Z"
  else if -135 ≤ angle ∧ angle < -45 then "Z"
  else "X"

/-- The angle-bucket table of spec section 4.2, as a function of the angle
    in degrees alone (stated from the spec, for comparison with
    `determine_load_direction`). -/
noncomputable def bucketDir (angle : ℝ) : String :=
  if -45 ≤ angle ∧ angle < 45 then "X"
  else if 45 ≤ angle ∧ angle < 135 then "Z"
  else if -135 ≤ angle ∧ angle < -45 then "Z"
  else "X"

/-- A Blender vertex. Only its coordinate is used; its `index` attribute
    equals its position in the mesh's vertex list (a Blender invariant),
    so the embedding indexes vertices by list position. -/
structure BVertex where
  co : Vec3

/-- A Blender edge: `edge.vertices` is a pair of vertex indices. -/
structure BEdge where
  vertices : ℕ × ℕ

/-- A Blender polygon: `poly.vertices` is the ordered vertex-index loop. -/
structure BPolygon where
  vertices : List ℕ

/-- A Blender mesh datablock. -/
structure BMesh where
  vertices : List BVertex
  edges : List BEdge
  polygons : List BPolygon

/-- A Blender scene object: a type tag plus mesh data (`obj.data`). -/
structure BObject where
  type : String
  data : BMesh

/-- The node record of `extract_mesh_data`, with the y/z axis swap. -/
structure Node where
  x : ℝ
  y : ℝ
  z : ℝ

/-- The support record of `extract_mesh_data`. -/
structure Support where
  type : String
  direction_code : String
  tx : ℕ
  ty : ℕ
  tz : ℕ
  rx : ℕ
  ry : ℕ
  rz : ℕ
  node : ℕ
  restraint_code : String

/-- The member record of `extract_mesh_data`. -/
structure Member where
  type : String
  cable_length : Option ℝ
  node_A : ℕ
  node_B : ℕ
  section_id : ℕ
  rotation_angle : ℕ
  fixity_A : String
  fixity_B : String
  offset_Ax : String
  offset_Ay : String
  offset_Az : String
  offset_Bx : String
  offset_By : String
  offset_Bz : String
  stiffness_A_Ry : ℕ
  stiffness_A_Rz : ℕ
  stiffness_B_Ry : ℕ
  stiffness_B_Rz : ℕ
  mirror : String
  disable_non_linear_effects : String

/-- The node built for a vertex: `x = co.x`, `y = co.z`, `z = co.y`
    (the axis swap of `extract_mesh_data`). -/
def mkNode (vertex : BVertex) : Node :=
  { x := vertex.co.x, y := vertex.co.z, z := vertex.co.y }

/-- The support record written for a ground-level node. -/
def mkSupport (node_id : ℕ) : Support :=
  { type := "node", direction_code := "BBBBBB", tx := 0, ty := 0, tz := 0,
    rx := 0, ry := 0, rz := 0, node := node_id, restraint_code := "FFFFFF" }

/-- The member record written for an edge, given its endpoint node ids. -/
def mkMember (a b : ℕ) : Member :=
  { type := "normal_continuous", cable_length := none, node_A := a, node_B := b,
    section_id := 1, rotation_angle := 0, fixity_A := "FFFFFF", fixity_B := "FFFFFF",
    offset_Ax := "0", offset_Ay := "0", offset_Az := "0",
    offset_Bx := "0", offset_By := "0", offset_Bz := "0",
    stiffness_A_Ry := 0, stiffness_A_Rz := 0, stiffness_B_Ry := 0, stiffness_B_Rz := 0,
    mirror := "no", disable_non_linear_effects := "no" }

/-- The `for i, vertex in enumerate(mesh.vertices)` loop of
    `extract_mesh_data`: assigns node ids, fills `vertex_map`, and records
    supports for vertices with source `co.z == 0`. `i` is the enumeration
    index, which equals `vertex.index` in Blender. -/
noncomputable def foldVerts (i : ℕ) (vs : List BVertex) (vertex_map : List (ℕ × ℕ))
    (nodes : List (ℕ × Node)) (supports : List (ℕ × Support)) :
    List (ℕ × ℕ) × List (ℕ × Node) × List (ℕ × Support) :=
  match vs with
  | [] => (vertex_map, nodes, supports)
  | vertex :: rest =>
    let node_id := nodes.length + 1
    let vertex_map' := dinsert vertex_map i node_id
    let nodes' := dinsert nodes node_id (mkNode vertex)
    let supports' :=
      if vertex.co.z = 0 then dinsert supports node_id (mkSupport node_id) else supports
    foldVerts (i + 1) rest vertex_map' nodes' supports'

/-- The `for edge in mesh.edges` loop of `extract_mesh_data`. A vertex
    index missing from `vertex_map` would raise KeyError in the source
    (never reached for in-bounds edges); the lookup is totalised with 0. -/
def foldEdges (es : List BEdge) (vertex_map : List (ℕ × ℕ))
    (members : List (ℕ × Member)) : List (ℕ × Member) :=
  match es with
  | [] => members
  | edge :: rest =>
    let member_id := members.length + 1
    let members' := dinsert members member_id
      (mkMember ((vertex_map.lookup edge.vertices.1).getD 0)
                ((vertex_map.lookup edge.vertices.2).getD 0))
    foldEdges rest vertex_map members'

/-- The accumulated output of `extract_mesh_data`. -/
structure ExtractAcc where
  nodes : List (ℕ × Node)
  members : List (ℕ × Member)
  supports : List (ℕ × Support)

/-- The body of the scene loop of `extract_mesh_data`: process one object,
    skipping objects whose type is not `'MESH'`. -/
noncomputable def extractObject (acc : ExtractAcc) (obj : BObject) : ExtractAcc :=
  if obj.type = "MESH" then
    let r := foldVerts 0 obj.data.vertices [] acc.nodes acc.supports
    let members' := foldEdges obj.data.edges r.1 acc.members
    ⟨r.2.1, members', r.2.2⟩
  else acc

/-- The `extract_mesh_data` function, over the scene's object list. -/
noncomputable def extract_mesh_data (scene : List BObject) : ExtractAcc :=
  scene.foldl extractObject ⟨[], [], []⟩

/-- The plate record of `create_plates`. -/
structure Plate where
  nodes : String
  thickness : ℝ
  material_id : ℕ
  rotZ : ℕ
  type : String
  diaphragm : String
  offset : ℕ
  state : String
  drilling_stiffness_factor : ℕ
  holes : List String
  diaphragm_internal_nodes : Option String
  diaphragm_fixity : String
  membrane_thickness : String
  bending_thickness : String
  shear_thickness : String
  isMeshed : Bool

/-- A plate specification dict as consumed by `create_plates`: each field
    is optional and `spec.get(key, default)` is modelled by `Option.getD`. -/
structure PlateSpec where
  nodes : Option String := none
  thickness : Option ℝ := none
  material_id : Option ℕ := none
  rotZ : Option ℕ := none
  type : Option String := none
  diaphragm : Option String := none
  offset : Option ℕ := none
  state : Option String := none
  drilling_stiffness_factor : Option ℕ := none
  holes : Option (List String) := none
  diaphragm_internal_nodes : Option String := none
  diaphragm_fixity : Option String := none
  membrane_thickness : Option String := none
  bending_thickness : Option String := none
  shear_thickness : Option String := none
  isMeshed : Option Bool := none

/-- The plate record built in the body of `create_plates`. -/
noncomputable def mkPlate (spec : PlateSpec) : Plate :=
  { nodes := spec.nodes.getD ""
    thickness := spec.thickness.getD 0.39370078740157477
    material_id := spec.material_id.getD 3
    rotZ := spec.rotZ.getD 0
    type := spec.type.getD "auto"
    diaphragm := spec.diaphragm.getD "no"
    offset := spec.offset.getD 0
    state := spec.state.getD "stress"
    drilling_stiffness_factor := spec.drilling_stiffness_factor.getD 1
    holes := spec.holes.getD []
    diaphragm_internal_nodes := spec.diaphragm_internal_nodes
    diaphragm_fixity := spec.diaphragm_fixity.getD "auto"
    membrane_thickness := spec.membrane_thickness.getD ""
    bending_thickness := spec.bending_thickness.getD ""
    shear_thickness := spec.shear_thickness.getD ""
    isMeshed := spec.isMeshed.getD false }

/-- The `for i, spec in enumerate(plate_specs)` loop of `create_plates`. -/
noncomputable def create_plates_aux (i : ℕ) (specs : List PlateSpec)
    (plates : List (String × Plate)) : List (String × Plate) :=
  match specs with
  | [] => plates
  | spec :: rest =>
    create_plates_aux (i + 1) rest (dinsert plates (natToStr (i + 1)) (mkPlate spec))

/-- The `create_plates` function. -/
noncomputable def create_plates (plate_specs : List PlateSpec) : List (String × Plate) :=
  create_plates_aux 0 plate_specs []

/-- The `create_plates_from_mesh_data` function: one spec per polygon,
    node references `str(i + 1)` for every vertex index of the polygon. -/
noncomputable def create_plates_from_mesh_data (mesh : BMesh) : List (String × Plate) :=
  create_plates (mesh.polygons.map (fun poly =>
    { nodes := some (joinComma (poly.vertices.map (fun i => natToStr (i + 1))))
      thickness := some 0.39370078740157477
      material_id := some 3 }))

/-- The area-load record of `add_loads_to_plates`. -/
structure AreaLoad where
  type : String
  nodes : String
  members : ℕ
  mag : ℝ
  direction : String
  elevations : ℕ
  mags : ℕ
  column_direction : String
  elevation_direction : String
  loaded_members_axis : String
  LG : String

/-- The vertex coordinates that a plate's node-reference string resolves to
    (`mesh.vertices[int(idx) - 1].co` per reference). An out-of-range
    reference raises IndexError in the source (never reached for
    pipeline-produced plates); it is totalised with a zero vertex. -/
noncomputable def plateVerts (mesh : BMesh) (plate_info : Plate) : List Vec3 :=
  (splitComma plate_info.nodes).map
    (fun idx => (mesh.vertices.getD (strToNat idx - 1) ⟨⟨0, 0, 0⟩⟩).co)

/-- The body of the `add_loads_to_plates` loop for one plate: resolve the
    node references, compute the normal of the first three vertices
    (exceptions caught as `none`), classify, and build the record. -/
noncomputable def plateLoad (mesh : BMesh) (plate_info : Plate) : AreaLoad :=
  let nodes_indices := splitComma plate_info.nodes
  let vertices := plateVerts mesh plate_info
  let normal := calculate_normal (vertices.take 3)
  let load : ℝ × String :=
    match normal with
    | none => (100, "Z")
    | some n => if |n.z| > 0.5 then (0.15, "Y") else (0.08, determine_load_direction n)
  { type := "one_way"
    nodes := plate_info.nodes
    members := 0
    mag := load.1
    direction := load.2
    elevations := 0
    mags := 0
    column_direction := joinComma (nodes_indices.take 2)
    elevation_direction := ""
    loaded_members_axis := "all"
    LG := "LG" }

/-- The `add_loads_to_plates` function: one area-load record per plate,
    keyed by the plate's id. -/
noncomputable def add_loads_to_plates (plates : List (String × Plate)) (mesh : BMesh) :
    List (String × AreaLoad) :=
  plates.foldl (fun area_loads p => dinsert area_loads p.1 (plateLoad mesh p.2)) []

lemma dinsert_fresh {κ α : Type} [DecidableEq κ] (d : List (κ × α)) (k : κ) (v : α)
    (h : k ∉ d.map Prod.fst) : dinsert d k v = d ++ [(k, v)] := if_neg h

lemma cross_dot_left (a b : Vec3) : dot (cross a b) a = 0 := by
  simp only [dot, cross]; ring

lemma cross_dot_right (a b : Vec3) : dot (cross a b) b = 0 := by
  simp only [dot, cross]; ring

lemma calcNormal_unit {vs : List Vec3} {n : Vec3} (h : calculate_normal vs = some n) :
    n.x ^ 2 + n.y ^ 2 + n.z ^ 2 = 1 := by
  match vs with
  | [] => simp [calculate_normal] at h
  | [a] => simp [calculate_normal] at h
  | [a, b] => simp [calculate_normal] at h
  | a :: b :: c :: d :: t => simp [calculate_normal] at h
  | [v1, v2, v3] =>
    simp only [calculate_normal] at h
    set c := cross (vsub v2 v1) (vsub v3 v1) with hc
    set L := Real.sqrt (c.x ^ 2 + c.y ^ 2 + c.z ^ 2) with hL
    by_cases h0 : L = 0
    · simp [h0] at h
    · rw [if_neg h0] at h
      have hS : 0 ≤ c.x ^ 2 + c.y ^ 2 + c.z ^ 2 := by positivity
      have hL2 : L ^ 2 = c.x ^ 2 + c.y ^ 2 + c.z ^ 2 := Real.sq_sqrt hS
      obtain rfl : n = ⟨c.x / L, c.y / L, c.z / L⟩ := (Option.some.inj h).symm
      show (c.x / L) ^ 2 + (c.y / L) ^ 2 + (c.z / L) ^ 2 = 1
      field_simp
      linarith [hL2]

lemma calcNormal_not3 {vs : List Vec3} (h : vs.length ≠ 3) : calculate_normal vs = none := by
  match vs with
  | [] => rfl
  | [a] => rfl
  | [a, b] => rfl
  | [a, b, c] => exact absurd rfl h
  | a :: b :: c :: d :: t => rfl

lemma calcNormal_none_of_cross_zero {v1 v2 v3 : Vec3}
    (h : cross (vsub v2 v1) (vsub v3 v1) = ⟨0, 0, 0⟩) :
    calculate_normal [v1, v2, v3] = none := by
  simp only [calculate_normal, h]
  norm_num

lemma calcNormal_some_of_cross_ne {v1 v2 v3 : Vec3}
    (h : cross (vsub v2 v1) (vsub v3 v1) ≠ ⟨0, 0, 0⟩) :
    ∃ L : ℝ, L ≠ 0 ∧
      L = Real.sqrt ((cross (vsub v2 v1) (vsub v3 v1)).x ^ 2 +
        (cross (vsub v2 v1) (vsub v3 v1)).y ^ 2 + (cross (vsub v2 v1) (vsub v3 v1)).z ^ 2) ∧
      calculate_normal [v1, v2, v3] =
        some ⟨(cross (vsub v2 v1) (vsub v3 v1)).x / L,
              (cross (vsub v2 v1) (vsub v3 v1)).y / L,
              (cross (vsub v2 v1) (vsub v3 v1)).z / L⟩ := by
  set c := cross (vsub v2 v1) (vsub v3 v1) with hc
  have hS : 0 ≤ c.x ^ 2 + c.y ^ 2 + c.z ^ 2 := by positivity
  have hSne : c.x ^ 2 + c.y ^ 2 + c.z ^ 2 ≠ 0 := by
    intro h0
    apply h
    have hx : c.x = 0 := by nlinarith [sq_nonneg c.x, sq_nonneg c.y, sq_nonneg c.z]
    have hy : c.y = 0 := by nlinarith [sq_nonneg c.x, sq_nonneg c.y, sq_nonneg c.z]
    have hz : c.z = 0 := by nlinarith [sq_nonneg c.x, sq_nonneg c.y, sq_nonneg c.z]
    have hcc : c = ⟨c.x, c.y, c.z⟩ := rfl
    rw [hcc, hx, hy, hz]
  refine ⟨Real.sqrt (c.x ^ 2 + c.y ^ 2 + c.z ^ 2), ?_, rfl, ?_⟩
  · exact fun h0 => hSne ((Real.sqrt_eq_zero hS).mp h0)
  · simp only [calculate_normal, ← hc]
    rw [if_neg (fun h0 => hSne ((Real.sqrt_eq_zero hS).mp h0))]

lemma bucketDir_cases (a : ℝ) : bucketDir a = "X" ∨ bucketDir a = "Z" := by
  unfold bucketDir
  split_ifs <;> simp

lemma dld_of_unit {n : Vec3} (h : n.x ^ 2 + n.y ^ 2 + n.z ^ 2 = 1) :
    determine_load_direction n = bucketDir (atan2 n.y n.x * (180 / Real.pi)) := by
  simp only [determine_load_direction, bucketDir, h, Real.sqrt_one, div_one]

/-- C7: for every triangle `(v1, v2, v3)` with non-zero area (non-zero
    cross product of the edge vectors), `calculate_normal` returns a unit
    vector perpendicular to both edge vectors `(v2 - v1)` and `(v3 - v1)`.
    In the real-number model the norm is exactly 1. -/
theorem C7_normal_unit_perpendicular (v1 v2 v3 : Vec3)
    (h : cross (vsub v2 v1) (vsub v3 v1) ≠ ⟨0, 0, 0⟩) :
    ∃ n : Vec3, calculate_normal [v1, v2, v3] = some n ∧
      n.x ^ 2 + n.y ^ 2 + n.z ^ 2 = 1 ∧
      dot n (vsub v2 v1) = 0 ∧ dot n (vsub v3 v1) = 0 := by
  obtain ⟨L, hL0, hL, hsome⟩ := calcNormal_some_of_cross_ne h
  set c := cross (vsub v2 v1) (vsub v3 v1) with hc
  refine ⟨⟨c.x / L, c.y / L, c.z / L⟩, hsome, calcNormal_unit hsome, ?_, ?_⟩
  · have base := cross_dot_left (vsub v2 v1) (vsub v3 v1)
    show (c.x / L) * (vsub v2 v1).x + (c.y / L) * (vsub v2 v1).y +
      (c.z / L) * (vsub v2 v1).z = 0
    have : (c.x / L) * (vsub v2 v1).x + (c.y / L) * (vsub v2 v1).y +
        (c.z / L) * (vsub v2 v1).z = (dot c (vsub v2 v1)) / L := by
      simp only [dot]; ring
    rw [this, hc, base, zero_div]
  · have base := cross_dot_right (vsub v2 v1) (vsub v3 v1)
    show (c.x / L) * (vsub v3 v1).x + (c.y / L) * (vsub v3 v1).y +
      (c.z / L) * (vsub v3 v1).z = 0
    have : (c.x / L) * (vsub v3 v1).x + (c.y / L) * (vsub v3 v1).y +
        (c.z / L) * (vsub v3 v1).z = (dot c (vsub v3 v1)) / L := by
      simp only [dot]; ring
    rw [this, hc, base, zero_div]

theorem C7_witness :
    cross (vsub ⟨1, 0, 0⟩ ⟨0, 0, 0⟩) (vsub ⟨0, 1, 0⟩ ⟨0, 0, 0⟩) ≠ (⟨0, 0, 0⟩ : Vec3) ∧
    (∃ n : Vec3, calculate_normal [⟨0, 0, 0⟩, ⟨1, 0, 0⟩, ⟨0, 1, 0⟩] = some n ∧
      n.x ^ 2 + n.y ^ 2 + n.z ^ 2 = 1 ∧
      dot n (vsub ⟨1, 0, 0⟩ ⟨0, 0, 0⟩) = 0 ∧ dot n (vsub ⟨0, 1, 0⟩ ⟨0, 0, 0⟩) = 0) := by
  have h : cross (vsub ⟨1, 0, 0⟩ ⟨0, 0, 0⟩) (vsub ⟨0, 1, 0⟩ ⟨0, 0, 0⟩) ≠ (⟨0, 0, 0⟩ : Vec3) := by
    simp only [cross, vsub, Vec3.mk.injEq]
    norm_num
  exact ⟨h, C7_normal_unit_perpendicular ⟨0, 0, 0⟩ ⟨1, 0, 0⟩ ⟨0, 1, 0⟩ h⟩

/-- C2: every plate whose first three resolved vertices yield a normal
    with `|z| > 0.5` is assigned load magnitude 0.15 and direction "Y",
    whatever the normal's x and y components are. -/
theorem C2_horizontal_load (mesh : BMesh) (plate_info : Plate) (n : Vec3)
    (hn : calculate_normal ((plateVerts mesh plate_info).take 3) = some n)
    (hz : |n.z| > 0.5) :
    (plateLoad mesh plate_info).mag = 0.15 ∧ (plateLoad mesh plate_info).direction = "Y" := by
  simp [plateLoad, hn, hz]

theorem C2_witness :
    calculate_normal ((plateVerts ⟨[⟨⟨0, 0, 0⟩⟩, ⟨⟨1, 0, 0⟩⟩, ⟨⟨0, 1, 0⟩⟩], [], []⟩
        (mkPlate { nodes := some "1,2,3" })).take 3) = some ⟨0, 0, 1⟩ ∧
    |(Vec3.mk 0 0 1).z| > 0.5 ∧
    (plateLoad ⟨[⟨⟨0, 0, 0⟩⟩, ⟨⟨1, 0, 0⟩⟩, ⟨⟨0, 1, 0⟩⟩], [], []⟩
        (mkPlate { nodes := some "1,2,3" })).mag = 0.15 ∧
    (plateLoad ⟨[⟨⟨0, 0, 0⟩⟩, ⟨⟨1, 0, 0⟩⟩, ⟨⟨0, 1, 0⟩⟩], [], []⟩
        (mkPlate { nodes := some "1,2,3" })).direction = "Y" := by
  have hsplit : splitComma "1,2,3" = ["1", "2", "3"] := by decide
  have hs1 : strToNat "1" = 1 := by decide
  have hs2 : strToNat "2" = 2 := by decide
  have hs3 : strToNat "3" = 3 := by decide
  have hnodes : (mkPlate { nodes := some "1,2,3" }).nodes = "1,2,3" := by simp [mkPlate]
  have hverts : plateVerts ⟨[⟨⟨0, 0, 0⟩⟩, ⟨⟨1, 0, 0⟩⟩, ⟨⟨0, 1, 0⟩⟩], [], []⟩
      (mkPlate { nodes := some "1,2,3" }) = [⟨0, 0, 0⟩, ⟨1, 0, 0⟩, ⟨0, 1, 0⟩] := by
    simp [plateVerts, hnodes, hsplit, hs1, hs2, hs3, List.getD]
  have hn : calculate_normal ((plateVerts ⟨[⟨⟨0, 0, 0⟩⟩, ⟨⟨1, 0, 0⟩⟩, ⟨⟨0, 1, 0⟩⟩], [], []⟩
      (mkPlate { nodes := some "1,2,3" })).take 3) = some ⟨0, 0, 1⟩ := by
    rw [hverts]
    show calculate_normal [⟨0, 0, 0⟩, ⟨1, 0, 0⟩, ⟨0, 1, 0⟩] = some ⟨0, 0, 1⟩
    simp only [calculate_normal, vsub, cross]
    norm_num [Real.sqrt_one]
  have hz : |(Vec3.mk 0 0 1).z| > 0.5 := by norm_num
  exact ⟨hn, hz, C2_horizontal_load _ _ _ hn hz⟩

/-- C3: every plate whose first three resolved vertices yield a normal
    with `|z| ≤ 0.5` is assigned magnitude 0.08 and a direction given
    purely by the angle `atan2(y, x)` in degrees through the bucket table
    [-45, 45) ↦ "X", [45, 135) ↦ "Z", [-135, -45) ↦ "Z", else "X"; in
    particular the direction is always "X" or "Z", never "Y". -/
theorem C3_vertical_load (mesh : BMesh) (plate_info : Plate) (n : Vec3)
    (hn : calculate_normal ((plateVerts mesh plate_info).take 3) = some n)
    (hz : |n.z| ≤ 0.5) :
    (plateLoad mesh plate_info).mag = 0.08 ∧
    (plateLoad mesh plate_info).direction = bucketDir (atan2 n.y n.x * (180 / Real.pi)) ∧
    ((plateLoad mesh plate_info).direction = "X" ∨
      (plateLoad mesh plate_info).direction = "Z") := by
  have hnot : ¬ (|n.z| > 0.5) := not_lt.mpr hz
  have hdir : (plateLoad mesh plate_info).direction = determine_load_direction n := by
    simp [plateLoad, hn, hnot]
  have heq := dld_of_unit (calcNormal_unit hn)
  refine ⟨by simp [plateLoad, hn, hnot], by rw [hdir, heq], ?_⟩
  rw [hdir, heq]
  exact bucketDir_cases _

theorem C3_witness :
    calculate_normal ((plateVerts ⟨[⟨⟨0, 0, 0⟩⟩, ⟨⟨0, 1, 0⟩⟩, ⟨⟨0, 0, 1⟩⟩], [], []⟩
        (mkPlate { nodes := some "1,2,3" })).take 3) = some ⟨1, 0, 0⟩ ∧
    |(Vec3.mk 1 0 0).z| ≤ 0.5 ∧
    (plateLoad ⟨[⟨⟨0, 0, 0⟩⟩, ⟨⟨0, 1, 0⟩⟩, ⟨⟨0, 0, 1⟩⟩], [], []⟩
        (mkPlate { nodes := some "1,2,3" })).mag = 0.08 ∧
    (plateLoad ⟨[⟨⟨0, 0, 0⟩⟩, ⟨⟨0, 1, 0⟩⟩, ⟨⟨0, 0, 1⟩⟩], [], []⟩
        (mkPlate { nodes := some "1,2,3" })).direction =
      bucketDir (atan2 (Vec3.mk 1 0 0).y (Vec3.mk 1 0 0).x * (180 / Real.pi)) := by
  have hsplit : splitComma "1,2,3" = ["1", "2", "3"] := by decide
  have hs1 : strToNat "1" = 1 := by decide
  have hs2 : strToNat "2" = 2 := by decide
  have hs3 : strToNat "3" = 3 := by decide
  have hnodes : (mkPlate { nodes := some "1,2,3" }).nodes = "1,2,3" := by simp [mkPlate]
  have hverts : plateVerts ⟨[⟨⟨0, 0, 0⟩⟩, ⟨⟨0, 1, 0⟩⟩, ⟨⟨0, 0, 1⟩⟩], [], []⟩
      (mkPlate { nodes := some "1,2,3" }) = [⟨0, 0, 0⟩, ⟨0, 1, 0⟩, ⟨0, 0, 1⟩] := by
    simp [plateVerts, hnodes, hsplit, hs1, hs2, hs3, List.getD]
  have hn : calculate_normal ((plateVerts ⟨[⟨⟨0, 0, 0⟩⟩, ⟨⟨0, 1, 0⟩⟩, ⟨⟨0, 0, 1⟩⟩], [], []⟩
      (mkPlate { nodes := some "1,2,3" })).take 3) = some ⟨1, 0, 0⟩ := by
    rw [hverts]
    show calculate_normal [⟨0, 0, 0⟩, ⟨0, 1, 0⟩, ⟨0, 0, 1⟩] = some ⟨1, 0, 0⟩
    simp only [calculate_normal, vsub, cross]
    norm_num [Real.sqrt_one]
  have hz : |(Vec3.mk 1 0 0).z| ≤ 0.5 := by norm_num
  have hmain := C3_vertical_load _ _ _ hn hz
  exact ⟨hn, hz, hmain.1, hmain.2.1⟩

lemma foldl_dinsert_eq_append (mesh : BMesh) (plates : List (String × Plate)) :
    ∀ acc : List (String × AreaLoad),
      (plates.map Prod.fst).Nodup →
      (∀ k ∈ plates.map Prod.fst, k ∉ acc.map Prod.fst) →
      plates.foldl (fun area_loads p => dinsert area_loads p.1 (plateLoad mesh p.2)) acc =
        acc ++ plates.map (fun p => (p.1, plateLoad mesh p.2)) := by
  induction plates with
  | nil => intro acc _ _; simp
  | cons p rest ih =>
    intro acc hnd hdisj
    obtain ⟨pid, info⟩ := p
    simp only [List.map_cons, List.nodup_cons] at hnd
    have hfresh : pid ∉ acc.map Prod.fst := hdisj pid (by simp)
    simp only [List.foldl_cons]
    rw [dinsert_fresh _ _ _ hfresh]
    rw [ih (acc ++ [(pid, plateLoad mesh info)]) hnd.2 ?_]
    · simp
    · intro k hk hmem
      simp only [List.map_append, List.mem_append] at hmem
      rcases hmem with h1 | h2
      · exact hdisj k (by simp [hk]) h1
      · simp only [List.map_cons, List.map_nil, List.mem_singleton] at h2
        subst h2
        exact hnd.1 hk

lemma add_loads_eq_map (mesh : BMesh) (plates : List (String × Plate))
    (hnd : (plates.map Prod.fst).Nodup) :
    add_loads_to_plates plates mesh = plates.map (fun p => (p.1, plateLoad mesh p.2)) := by
  have h := foldl_dinsert_eq_append mesh plates [] hnd (by simp)
  simpa [add_loads_to_plates] using h

lemma lookup_map_of_mem {α β : Type} (f : α → β) :
    ∀ (l : List (String × α)) (k : String) (v : α),
      (l.map Prod.fst).Nodup → (k, v) ∈ l →
      List.lookup k (l.map (fun p => (p.1, f p.2))) = some (f v) := by
  intro l
  induction l with
  | nil => intro k v _ h; simp at h
  | cons p rest ih =>
    intro k v hnd hmem
    obtain ⟨q, qv⟩ := p
    simp only [List.map_cons, List.nodup_cons] at hnd
    by_cases hkq : k = q
    · subst hkq
      have hv : v = qv := by
        rcases List.mem_cons.mp hmem with h | h
        · cases h; rfl
        · exfalso
          exact hnd.1 (List.mem_map.mpr ⟨(k, v), h, rfl⟩)
      subst hv
      simp [List.lookup]
    · have hbeq : (k == q) = false := beq_eq_false_iff_ne.mpr hkq
      have hrest : (k, v) ∈ rest := by
        rcases List.mem_cons.mp hmem with h | h
        · exact absurd (congrArg Prod.fst h) hkq
        · exact h
      simp only [List.map_cons, List.lookup, hbeq]
      exact ih k v hnd.2 hrest

/-- C4: a plate whose first three resolved vertices are collinear (zero
    cross product) makes the normal computation fail, receives the fallback
    magnitude 100 and direction "Z", and processing of the other plates is
    unaffected: the area-load dict has exactly one record per plate key. -/
theorem C4_collinear_fallback (mesh : BMesh) (plates : List (String × Plate))
    (plate_id : String) (plate_info : Plate) (v1 v2 v3 : Vec3)
    (hnd : (plates.map Prod.fst).Nodup)
    (hmem : (plate_id, plate_info) ∈ plates)
    (h3 : (plateVerts mesh plate_info).take 3 = [v1, v2, v3])
    (hcol : cross (vsub v2 v1) (vsub v3 v1) = ⟨0, 0, 0⟩) :
    calculate_normal ((plateVerts mesh plate_info).take 3) = none ∧
    (plateLoad mesh plate_info).mag = 100 ∧
    (plateLoad mesh plate_info).direction = "Z" ∧
    (add_loads_to_plates plates mesh).map Prod.fst = plates.map Prod.fst ∧
    List.lookup plate_id (add_loads_to_plates plates mesh) =
      some (plateLoad mesh plate_info) := by
  have hnone : calculate_normal ((plateVerts mesh plate_info).take 3) = none := by
    rw [h3]
    exact calcNormal_none_of_cross_zero hcol
  refine ⟨hnone, ?_, ?_, ?_, ?_⟩
  · simp [plateLoad, hnone]
  · simp [plateLoad, hnone]
  · rw [add_loads_eq_map mesh plates hnd]
    simp
  · rw [add_loads_eq_map mesh plates hnd]
    exact lookup_map_of_mem _ plates plate_id plate_info hnd hmem

theorem C4_witness :
    ((([("1", mkPlate { nodes := some "1,2,3" })] : List (String × Plate)).map
        Prod.fst).Nodup) ∧
    (("1", mkPlate { nodes := some "1,2,3" }) ∈
      ([("1", mkPlate { nodes := some "1,2,3" })] : List (String × Plate))) ∧
    ((plateVerts ⟨[⟨⟨0, 0, 0⟩⟩, ⟨⟨1, 0, 0⟩⟩, ⟨⟨2, 0, 0⟩⟩], [], []⟩
        (mkPlate { nodes := some "1,2,3" })).take 3 = [⟨0, 0, 0⟩, ⟨1, 0, 0⟩, ⟨2, 0, 0⟩]) ∧
    (cross (vsub ⟨1, 0, 0⟩ ⟨0, 0, 0⟩) (vsub ⟨2, 0, 0⟩ ⟨0, 0, 0⟩) = (⟨0, 0, 0⟩ : Vec3)) ∧
    (plateLoad ⟨[⟨⟨0, 0, 0⟩⟩, ⟨⟨1, 0, 0⟩⟩, ⟨⟨2, 0, 0⟩⟩], [], []⟩
        (mkPlate { nodes := some "1,2,3" })).mag = 100 ∧
    (plateLoad ⟨[⟨⟨0, 0, 0⟩⟩, ⟨⟨1, 0, 0⟩⟩, ⟨⟨2, 0, 0⟩⟩], [], []⟩
        (mkPlate { nodes := some "1,2,3" })).direction = "Z" ∧
    (add_loads_to_plates [("1", mkPlate { nodes := some "1,2,3" })]
        ⟨[⟨⟨0, 0, 0⟩⟩, ⟨⟨1, 0, 0⟩⟩, ⟨⟨2, 0, 0⟩⟩], [], []⟩).map Prod.fst =
      ([("1", mkPlate { nodes := some "1,2,3" })] : List (String × Plate)).map Prod.fst := by
  have hnd : ((([("1", mkPlate { nodes := some "1,2,3" })] : List (String × Plate)).map
      Prod.fst).Nodup) := by simp
  have hmem : ("1", mkPlate { nodes := some "1,2,3" }) ∈
      ([("1", mkPlate { nodes := some "1,2,3" })] : List (String × Plate)) := by simp
  have hsplit : splitComma "1,2,3" = ["1", "2", "3"] := by decide
  have hs1 : strToNat "1" = 1 := by decide
  have hs2 : strToNat "2" = 2 := by decide
  have hs3 : strToNat "3" = 3 := by decide
  have hnodes : (mkPlate { nodes := some "1,2,3" }).nodes = "1,2,3" := by simp [mkPlate]
  have h3 : (plateVerts ⟨[⟨⟨0, 0, 0⟩⟩, ⟨⟨1, 0, 0⟩⟩, ⟨⟨2, 0, 0⟩⟩], [], []⟩
      (mkPlate { nodes := some "1,2,3" })).take 3 = [⟨0, 0, 0⟩, ⟨1, 0, 0⟩, ⟨2, 0, 0⟩] := by
    have hverts : plateVerts ⟨[⟨⟨0, 0, 0⟩⟩, ⟨⟨1, 0, 0⟩⟩, ⟨⟨2, 0, 0⟩⟩], [], []⟩
        (mkPlate { nodes := some "1,2,3" }) = [⟨0, 0, 0⟩, ⟨1, 0, 0⟩, ⟨2, 0, 0⟩] := by
      simp [plateVerts, hnodes, hsplit, hs1, hs2, hs3, List.getD]
    rw [hverts]
    rfl
  have hcol : cross (vsub ⟨1, 0, 0⟩ ⟨0, 0, 0⟩) (vsub ⟨2, 0, 0⟩ ⟨0, 0, 0⟩) =
      (⟨0, 0, 0⟩ : Vec3) := by
    simp only [cross, vsub, Vec3.mk.injEq]
    norm_num
  have hmain := C4_collinear_fallback ⟨[⟨⟨0, 0, 0⟩⟩, ⟨⟨1, 0, 0⟩⟩, ⟨⟨2, 0, 0⟩⟩], [], []⟩
    [("1", mkPlate { nodes := some "1,2,3" })] "1" (mkPlate { nodes := some "1,2,3" })
    ⟨0, 0, 0⟩ ⟨1, 0, 0⟩ ⟨2, 0, 0⟩ hnd hmem h3 hcol
  exact ⟨hnd, hmem, h3, hcol, hmain.2.1, hmain.2.2.1, hmain.2.2.2.1⟩

/-- C10: the fallback is applied for any exception inside the normal
    computation, not only zero-area triangles: a plate whose node string
    lists fewer than three (valid) vertex references makes the three-way
    unpacking fail, the bare except catches it, and the plate silently
    receives the same (100, "Z") load while the run continues (every plate
    still gets exactly one area-load record). -/
theorem C10_short_plate_fallback (mesh : BMesh) (plates : List (String × Plate))
    (plate_id : String) (plate_info : Plate)
    (hnd : (plates.map Prod.fst).Nodup)
    (hmem : (plate_id, plate_info) ∈ plates)
    (hshort : (splitComma plate_info.nodes).length < 3)
    (hvalid : ∀ idx ∈ splitComma plate_info.nodes,
      strToNat idx - 1 < mesh.vertices.length) :
    calculate_normal ((plateVerts mesh plate_info).take 3) = none ∧
    (plateLoad mesh plate_info).mag = 100 ∧
    (plateLoad mesh plate_info).direction = "Z" ∧
    (add_loads_to_plates plates mesh).map Prod.fst = plates.map Prod.fst ∧
    List.lookup plate_id (add_loads_to_plates plates mesh) =
      some (plateLoad mesh plate_info) := by
  have hlen : ((plateVerts mesh plate_info).take 3).length ≠ 3 := by
    have : (plateVerts mesh plate_info).length < 3 := by
      simpa [plateVerts] using hshort
    simp [List.length_take]
    omega
  have hnone : calculate_normal ((plateVerts mesh plate_info).take 3) = none :=
    calcNormal_not3 hlen
  refine ⟨hnone, ?_, ?_, ?_, ?_⟩
  · simp [plateLoad, hnone]
  · simp [plateLoad, hnone]
  · rw [add_loads_eq_map mesh plates hnd]
    simp
  · rw [add_loads_eq_map mesh plates hnd]
    exact lookup_map_of_mem _ plates plate_id plate_info hnd hmem

theorem C10_witness :
    ((([("1", mkPlate { nodes := some "1,2" })] : List (String × Plate)).map
        Prod.fst).Nodup) ∧
    (("1", mkPlate { nodes := some "1,2" }) ∈
      ([("1", mkPlate { nodes := some "1,2" })] : List (String × Plate))) ∧
    (splitComma (mkPlate { nodes := some "1,2" }).nodes).length < 3 ∧
    (∀ idx ∈ splitComma (mkPlate { nodes := some "1,2" }).nodes,
      strToNat idx - 1 <
        (⟨[⟨⟨0, 0, 0⟩⟩, ⟨⟨1, 0, 0⟩⟩], [], []⟩ : BMesh).vertices.length) ∧
    (plateLoad ⟨[⟨⟨0, 0, 0⟩⟩, ⟨⟨1, 0, 0⟩⟩], [], []⟩
        (mkPlate { nodes := some "1,2" })).mag = 100 ∧
    (plateLoad ⟨[⟨⟨0, 0, 0⟩⟩, ⟨⟨1, 0, 0⟩⟩], [], []⟩
        (mkPlate { nodes := some "1,2" })).direction = "Z" := by
  have hnodes : (mkPlate { nodes := some "1,2" }).nodes = "1,2" := by simp [mkPlate]
  have hsplit : splitComma "1,2" = ["1", "2"] := by decide
  have hnd : ((([("1", mkPlate { nodes := some "1,2" })] : List (String × Plate)).map
      Prod.fst).Nodup) := by simp
  have hmem : ("1", mkPlate { nodes := some "1,2" }) ∈
      ([("1", mkPlate { nodes := some "1,2" })] : List (String × Plate)) := by simp
  have hshort : (splitComma (mkPlate { nodes := some "1,2" }).nodes).length < 3 := by
    rw [hnodes, hsplit]
    norm_num
  have hvalid : ∀ idx ∈ splitComma (mkPlate { nodes := some "1,2" }).nodes,
      strToNat idx - 1 <
        (⟨[⟨⟨0, 0, 0⟩⟩, ⟨⟨1, 0, 0⟩⟩], [], []⟩ : BMesh).vertices.length := by
    rw [hnodes, hsplit]
    intro idx hidx
    have hs1 : strToNat "1" = 1 := by decide
    have hs2 : strToNat "2" = 2 := by decide
    simp only [List.mem_cons, List.not_mem_nil, or_false, List.mem_singleton] at hidx
    rcases hidx with h | h
    · subst h; simp [hs1]
    · subst h; simp [hs2]
  have hmain := C10_short_plate_fallback ⟨[⟨⟨0, 0, 0⟩⟩, ⟨⟨1, 0, 0⟩⟩], [], []⟩
    [("1", mkPlate { nodes := some "1,2" })] "1" (mkPlate { nodes := some "1,2" })
    hnd hmem hshort hvalid
  exact ⟨hnd, hmem, hshort, hvalid, hmain.2.1, hmain.2.2.1⟩

lemma range'_one_concat (n : ℕ) :
    List.range' 1 (n + 1) = List.range' 1 n ++ [n + 1] := by
  have h := @List.range'_concat 1 1 n
  simpa [Nat.add_comm] using h

lemma range'_glue (s m n : ℕ) :
    List.range' s m ++ List.range' (s + m) n = List.range' s (m + n) := by
  have h := List.range'_append s m n 1
  simpa [Nat.add_comm] using h

lemma digitVal_digitChar {d : ℕ} (h : d < 10) : digitVal (Nat.digitChar d) = d := by
  interval_cases d <;> decide

lemma strToNatAux_append (l1 l2 : List Char) (a : ℕ) :
    strToNatAux (l1 ++ l2) a = strToNatAux l2 (strToNatAux l1 a) := by
  induction l1 generalizing a with
  | nil => rfl
  | cons c cs ih => simp [strToNatAux, ih]

lemma strToNatAux_toDigitsAux : ∀ (fuel n a : ℕ), n < 10 ^ fuel →
    strToNatAux (toDigitsAux fuel n) a = a * 10 ^ (toDigitsAux fuel n).length + n := by
  intro fuel
  induction fuel with
  | zero =>
    intro n a h
    simp only [pow_zero, Nat.lt_one_iff] at h
    subst h
    simp [toDigitsAux, strToNatAux]
  | succ fuel ih =>
    intro n a h
    by_cases h10 : n < 10
    · simp [toDigitsAux, h10, strToNatAux, digitVal_digitChar h10]
    · rw [show toDigitsAux (fuel + 1) n =
        toDigitsAux fuel (n / 10) ++ [Nat.digitChar (n % 10)] from by
          simp [toDigitsAux, h10]]
      rw [strToNatAux_append]
      have hdiv : n / 10 < 10 ^ fuel := by
        rw [Nat.div_lt_iff_lt_mul (by norm_num)]
        calc n < 10 ^ (fuel + 1) := h
        _ = 10 ^ fuel * 10 := by ring
      rw [ih (n / 10) a hdiv]
      simp only [strToNatAux, digitVal_digitChar (Nat.mod_lt n (by norm_num)),
        List.length_append, List.length_singleton]
      rw [pow_succ, ← mul_assoc]
      set P := 10 ^ (toDigitsAux fuel (n / 10)).length
      set Q := a * P
      omega

lemma strToNat_natToStr (n : ℕ) : strToNat (natToStr n) = n := by
  have hlt : n < 10 ^ (n + 1) :=
    lt_of_lt_of_le (Nat.lt_pow_self (by norm_num) n)
      (Nat.pow_le_pow_right (by norm_num) (Nat.le_succ n))
  have h := strToNatAux_toDigitsAux (n + 1) n 0 hlt
  simpa [strToNat, natToStr] using h

lemma natToStr_injective : Function.Injective natToStr := by
  intro m n h
  have h2 := congrArg strToNat h
  rwa [strToNat_natToStr, strToNat_natToStr] at h2

/-- The nodes appended for one object's vertex list, starting after `off`
    already-assigned node ids (closed form of the vertex loop). -/
def nodesFor : List BVertex → ℕ → List (ℕ × Node)
  | [], _ => []
  | v :: rest, off => (off + 1, mkNode v) :: nodesFor rest (off + 1)

/-- The supports appended for one object's vertex list: one entry per
    vertex whose source z-coordinate is exactly 0. -/
noncomputable def supportsFor : List BVertex → ℕ → List (ℕ × Support)
  | [], _ => []
  | v :: rest, off =>
    (if v.co.z = 0 then [(off + 1, mkSupport (off + 1))] else []) ++
      supportsFor rest (off + 1)

/-- The vertex-to-node-id map built for one object of `m` vertices whose
    first node id is `off + 1`. -/
def vmapFor (m off : ℕ) : List (ℕ × ℕ) := (List.range m).map (fun j => (j, off + 1 + j))

/-- The members appended for one object's edge list. -/
def edgesFor : List BEdge → List (ℕ × ℕ) → ℕ → List (ℕ × Member)
  | [], _, _ => []
  | e :: rest, vmap, moff =>
    (moff + 1, mkMember ((vmap.lookup e.vertices.1).getD 0)
      ((vmap.lookup e.vertices.2).getD 0)) :: edgesFor rest vmap (moff + 1)

lemma nodesFor_keys (vs : List BVertex) :
    ∀ off, (nodesFor vs off).map Prod.fst = List.range' (off + 1) vs.length := by
  induction vs with
  | nil => intro off; simp [nodesFor]
  | cons v rest ih =>
    intro off
    simp only [nodesFor, List.map_cons, List.length_cons, ih (off + 1)]
    rw [List.range'_succ (off + 1) rest.length 1]

lemma nodesFor_length (vs : List BVertex) : ∀ off, (nodesFor vs off).length = vs.length := by
  intro off
  have h := congrArg List.length (nodesFor_keys vs off)
  simpa using h

lemma edgesFor_keys (es : List BEdge) :
    ∀ vmap moff, (edgesFor es vmap moff).map Prod.fst = List.range' (moff + 1) es.length := by
  induction es with
  | nil => intro vmap moff; simp [edgesFor]
  | cons e rest ih =>
    intro vmap moff
    simp only [edgesFor, List.map_cons, List.length_cons, ih vmap (moff + 1)]
    rw [List.range'_succ (moff + 1) rest.length 1]

lemma supportsFor_keys_bound (vs : List BVertex) :
    ∀ off k, k ∈ (supportsFor vs off).map Prod.fst → off < k ∧ k ≤ off + vs.length := by
  induction vs with
  | nil => intro off k h; simp [supportsFor] at h
  | cons v rest ih =>
    intro off k h
    simp only [supportsFor, List.map_append, List.mem_append] at h
    rcases h with h | h
    · by_cases hz : v.co.z = 0
      · rw [if_pos hz] at h
        simp only [List.map_cons, List.map_nil, List.mem_singleton] at h
        subst h
        simp
      · rw [if_neg hz] at h
        simp at h
    · have := ih (off + 1) k h
      constructor <;> [omega; (simp only [List.length_cons]; omega)]

lemma foldVerts_spec (vs : List BVertex) :
    ∀ (i : ℕ) (vmap : List (ℕ × ℕ)) (nodes : List (ℕ × Node))
      (supports : List (ℕ × Support)),
      nodes.map Prod.fst = List.range' 1 nodes.length →
      (∀ k ∈ vmap.map Prod.fst, k < i) →
      (∀ k ∈ supports.map Prod.fst, k ≤ nodes.length) →
      foldVerts i vs vmap nodes supports =
        (vmap ++ (List.range vs.length).map (fun j => (i + j, nodes.length + 1 + j)),
         nodes ++ nodesFor vs nodes.length,
         supports ++ supportsFor vs nodes.length) := by
  induction vs with
  | nil =>
    intro i vmap nodes supports _ _ _
    simp [foldVerts, nodesFor, supportsFor]
  | cons v rest ih =>
    intro i vmap nodes supports hn hv hs
    have hfv : i ∉ vmap.map Prod.fst := fun h => absurd (hv i h) (lt_irrefl i)
    have hfn : nodes.length + 1 ∉ nodes.map Prod.fst := by
      rw [hn]
      intro h
      rw [List.mem_range'_1] at h
      omega
    have hfs : nodes.length + 1 ∉ supports.map Prod.fst := fun h => by
      have := hs _ h; omega
    have hstep : foldVerts i (v :: rest) vmap nodes supports =
        foldVerts (i + 1) rest (dinsert vmap i (nodes.length + 1))
          (dinsert nodes (nodes.length + 1) (mkNode v))
          (if v.co.z = 0 then
            dinsert supports (nodes.length + 1) (mkSupport (nodes.length + 1))
          else supports) := rfl
    rw [hstep, dinsert_fresh _ _ _ hfv, dinsert_fresh _ _ _ hfn]
    have hn' : (nodes ++ [(nodes.length + 1, mkNode v)]).map Prod.fst =
        List.range' 1 (nodes ++ [(nodes.length + 1, mkNode v)]).length := by
      simp only [List.map_append, List.length_append, List.map_cons, List.map_nil,
        List.length_cons, List.length_nil, hn]
      rw [range'_one_concat nodes.length]
    have hv' : ∀ k ∈ (vmap ++ [(i, nodes.length + 1)]).map Prod.fst, k < i + 1 := by
      intro k hk
      simp only [List.map_append, List.mem_append, List.map_cons, List.map_nil,
        List.mem_singleton] at hk
      rcases hk with hk | hk
      · exact Nat.lt_succ_of_lt (hv k hk)
      · omega
    have hvmapeq : ∀ supports2 : List (ℕ × Support),
        (∀ k ∈ supports2.map Prod.fst, k ≤ (nodes ++ [(nodes.length + 1, mkNode v)]).length) →
        foldVerts (i + 1) rest (vmap ++ [(i, nodes.length + 1)])
            (nodes ++ [(nodes.length + 1, mkNode v)]) supports2 =
          (vmap ++ [(i, nodes.length + 1)] ++
            (List.range rest.length).map
              (fun j => (i + 1 + j, nodes.length + 1 + 1 + j)),
           nodes ++ [(nodes.length + 1, mkNode v)] ++ nodesFor rest (nodes.length + 1),
           supports2 ++ supportsFor rest (nodes.length + 1)) := by
      intro supports2 hs2
      have h := ih (i + 1) (vmap ++ [(i, nodes.length + 1)])
        (nodes ++ [(nodes.length + 1, mkNode v)]) supports2 hn' hv' hs2
      simpa using h
    have hmaps : (List.range (v :: rest).length).map
          (fun j => (i + j, nodes.length + 1 + j)) =
        (i, nodes.length + 1) ::
          (List.range rest.length).map (fun j => (i + 1 + j, nodes.length + 1 + 1 + j)) := by
      simp only [List.length_cons, List.range_succ_eq_map, List.map_cons, add_zero,
        List.map_map]
      have hfun : ((fun j => (i + j, nodes.length + 1 + j)) ∘ Nat.succ) =
          (fun j => (i + 1 + j, nodes.length + 1 + 1 + j)) := by
        funext j
        simp only [Function.comp_apply, Prod.mk.injEq]
        omega
      rw [hfun]
    by_cases hz : v.co.z = 0
    · rw [if_pos hz, dinsert_fresh _ _ _ hfs]
      have hs' : ∀ k ∈ (supports ++
          [(nodes.length + 1, mkSupport (nodes.length + 1))]).map Prod.fst,
          k ≤ (nodes ++ [(nodes.length + 1, mkNode v)]).length := by
        intro k hk
        simp only [List.map_append, List.mem_append, List.map_cons, List.map_nil,
          List.mem_singleton, List.length_append, List.length_cons, List.length_nil] at hk ⊢
        rcases hk with hk | hk
        · have := hs k hk; omega
        · omega
      rw [hvmapeq _ hs']
      simp only [Prod.mk.injEq]
      refine ⟨?_, ?_, ?_⟩
      · rw [List.append_assoc, hmaps]
        simp
      · rw [List.append_assoc]
        congr 1
      · rw [List.append_assoc]
        congr 1
        simp only [supportsFor, if_pos hz]
    · rw [if_neg hz]
      have hs' : ∀ k ∈ supports.map Prod.fst,
          k ≤ (nodes ++ [(nodes.length + 1, mkNode v)]).length := by
        intro k hk
        simp only [List.length_append, List.length_cons, List.length_nil]
        have := hs k hk; omega
      rw [hvmapeq _ hs']
      simp only [Prod.mk.injEq]
      refine ⟨?_, ?_, ?_⟩
      · rw [List.append_assoc, hmaps]
        simp
      · rw [List.append_assoc]
        congr 1
      · simp only [supportsFor, if_neg hz]
        simp

lemma edgesFor_length (es : List BEdge) :
    ∀ vmap moff, (edgesFor es vmap moff).length = es.length := by
  intro vmap moff
  have h := congrArg List.length (edgesFor_keys es vmap moff)
  simpa using h

lemma foldEdges_spec (es : List BEdge) :
    ∀ (vmap : List (ℕ × ℕ)) (members : List (ℕ × Member)),
      members.map Prod.fst = List.range' 1 members.length →
      foldEdges es vmap members = members ++ edgesFor es vmap members.length := by
  induction es with
  | nil => intro vmap members _; simp [foldEdges, edgesFor]
  | cons e rest ih =>
    intro vmap members hm
    have hfm : members.length + 1 ∉ members.map Prod.fst := by
      rw [hm]
      intro h
      rw [List.mem_range'_1] at h
      omega
    have hstep : foldEdges (e :: rest) vmap members =
        foldEdges rest vmap (dinsert members (members.length + 1)
          (mkMember ((vmap.lookup e.vertices.1).getD 0)
            ((vmap.lookup e.vertices.2).getD 0))) := rfl
    rw [hstep, dinsert_fresh _ _ _ hfm]
    have hm' : (members ++ [(members.length + 1,
        mkMember ((vmap.lookup e.vertices.1).getD 0)
          ((vmap.lookup e.vertices.2).getD 0))]).map Prod.fst =
        List.range' 1 (members ++ [(members.length + 1,
          mkMember ((vmap.lookup e.vertices.1).getD 0)
            ((vmap.lookup e.vertices.2).getD 0))]).length := by
      simp only [List.map_append, List.length_append, List.map_cons, List.map_nil,
        List.length_cons, List.length_nil, hm]
      rw [range'_one_concat members.length]
    rw [ih _ _ hm']
    simp only [List.length_append, List.length_cons, List.length_nil]
    rw [List.append_assoc]
    congr 1

/-- Vertex count contributed by one scene object (0 unless a mesh). -/
def meshVerts (obj : BObject) : ℕ :=
  if obj.type = "MESH" then obj.data.vertices.length else 0

/-- Edge count contributed by one scene object (0 unless a mesh). -/
def meshEdges (obj : BObject) : ℕ :=
  if obj.type = "MESH" then obj.data.edges.length else 0

/-- Total vertex count over the scene's mesh objects. -/
def sceneVerts (objs : List BObject) : ℕ := (objs.map meshVerts).sum

/-- Total edge count over the scene's mesh objects. -/
def sceneEdges (objs : List BObject) : ℕ := (objs.map meshEdges).sum

/-- Closed form of the whole-scene extraction: the node, member and
    support lists appended by the objects of the scene, given `voff` nodes
    and `moff` members already assigned. -/
noncomputable def sceneParts : List BObject → ℕ → ℕ →
    List (ℕ × Node) × List (ℕ × Member) × List (ℕ × Support)
  | [], _, _ => ([], [], [])
  | obj :: rest, voff, moff =>
    if obj.type = "MESH" then
      let parts := sceneParts rest (voff + obj.data.vertices.length)
        (moff + obj.data.edges.length)
      (nodesFor obj.data.vertices voff ++ parts.1,
       edgesFor obj.data.edges (vmapFor obj.data.vertices.length voff) moff ++ parts.2.1,
       supportsFor obj.data.vertices voff ++ parts.2.2)
    else sceneParts rest voff moff

lemma extract_spec : ∀ (objs : List BObject) (acc : ExtractAcc),
    acc.nodes.map Prod.fst = List.range' 1 acc.nodes.length →
    acc.members.map Prod.fst = List.range' 1 acc.members.length →
    (∀ k ∈ acc.supports.map Prod.fst, k ≤ acc.nodes.length) →
    objs.foldl extractObject acc =
      ⟨acc.nodes ++ (sceneParts objs acc.nodes.length acc.members.length).1,
       acc.members ++ (sceneParts objs acc.nodes.length acc.members.length).2.1,
       acc.supports ++ (sceneParts objs acc.nodes.length acc.members.length).2.2⟩ := by
  intro objs
  induction objs with
  | nil =>
    intro acc _ _ _
    cases acc
    simp [sceneParts]
  | cons obj rest ih =>
    intro acc hn hm hs
    by_cases ht : obj.type = "MESH"
    · have hfv := foldVerts_spec obj.data.vertices 0 [] acc.nodes acc.supports hn
        (by simp) hs
      have h1 : (foldVerts 0 obj.data.vertices [] acc.nodes acc.supports).1 =
          vmapFor obj.data.vertices.length acc.nodes.length := by
        rw [hfv]
        simp [vmapFor]
      have h2 : (foldVerts 0 obj.data.vertices [] acc.nodes acc.supports).2.1 =
          acc.nodes ++ nodesFor obj.data.vertices acc.nodes.length := by
        rw [hfv]
      have h3 : (foldVerts 0 obj.data.vertices [] acc.nodes acc.supports).2.2 =
          acc.supports ++ supportsFor obj.data.vertices acc.nodes.length := by
        rw [hfv]
      have hobj : extractObject acc obj =
          ⟨acc.nodes ++ nodesFor obj.data.vertices acc.nodes.length,
           acc.members ++ edgesFor obj.data.edges
             (vmapFor obj.data.vertices.length acc.nodes.length) acc.members.length,
           acc.supports ++ supportsFor obj.data.vertices acc.nodes.length⟩ := by
        simp only [extractObject, if_pos ht]
        rw [h1, h2, h3, foldEdges_spec obj.data.edges _ acc.members hm]
      have hn' : (acc.nodes ++ nodesFor obj.data.vertices acc.nodes.length).map Prod.fst =
          List.range' 1
            (acc.nodes ++ nodesFor obj.data.vertices acc.nodes.length).length := by
        simp only [List.map_append, List.length_append, hn,
          nodesFor_keys, nodesFor_length]
        rw [show acc.nodes.length + 1 = 1 + acc.nodes.length from by omega]
        exact range'_glue 1 acc.nodes.length obj.data.vertices.length
      have hm' : (acc.members ++ edgesFor obj.data.edges
            (vmapFor obj.data.vertices.length acc.nodes.length)
            acc.members.length).map Prod.fst =
          List.range' 1 (acc.members ++ edgesFor obj.data.edges
            (vmapFor obj.data.vertices.length acc.nodes.length)
            acc.members.length).length := by
        simp only [List.map_append, List.length_append, hm,
          edgesFor_keys, edgesFor_length]
        rw [show acc.members.length + 1 = 1 + acc.members.length from by omega]
        exact range'_glue 1 acc.members.length obj.data.edges.length
      have hs' : ∀ k ∈ (acc.supports ++
            supportsFor obj.data.vertices acc.nodes.length).map Prod.fst,
          k ≤ (acc.nodes ++ nodesFor obj.data.vertices acc.nodes.length).length := by
        intro k hk
        simp only [List.map_append, List.mem_append] at hk
        simp only [List.length_append, nodesFor_length]
        rcases hk with hk | hk
        · have := hs k hk; omega
        · have := supportsFor_keys_bound obj.data.vertices acc.nodes.length k hk
          omega
      have hfold : (obj :: rest).foldl extractObject acc =
          rest.foldl extractObject (extractObject acc obj) := rfl
      rw [hfold, hobj, ih _ hn' hm' hs']
      have hsp : sceneParts (obj :: rest) acc.nodes.length acc.members.length =
          (nodesFor obj.data.vertices acc.nodes.length ++
            (sceneParts rest (acc.nodes.length + obj.data.vertices.length)
              (acc.members.length + obj.data.edges.length)).1,
           edgesFor obj.data.edges (vmapFor obj.data.vertices.length acc.nodes.length)
             acc.members.length ++
            (sceneParts rest (acc.nodes.length + obj.data.vertices.length)
              (acc.members.length + obj.data.edges.length)).2.1,
           supportsFor obj.data.vertices acc.nodes.length ++
            (sceneParts rest (acc.nodes.length + obj.data.vertices.length)
              (acc.members.length + obj.data.edges.length)).2.2) := by
        simp only [sceneParts, if_pos ht]
      rw [hsp]
      simp only [List.length_append, nodesFor_length, edgesFor_length,
        ExtractAcc.mk.injEq]
      refine ⟨?_, ?_, ?_⟩ <;> rw [List.append_assoc]
    · have hobj : extractObject acc obj = acc := by
        simp [extractObject, ht]
      have hfold : (obj :: rest).foldl extractObject acc =
          rest.foldl extractObject (extractObject acc obj) := rfl
      rw [hfold, hobj, ih _ hn hm hs]
      have hsp : sceneParts (obj :: rest) acc.nodes.length acc.members.length =
          sceneParts rest acc.nodes.length acc.members.length := by
        simp only [sceneParts, if_neg ht]
      rw [hsp]

lemma sceneParts_nodes_keys : ∀ (objs : List BObject) (voff moff : ℕ),
    (sceneParts objs voff moff).1.map Prod.fst =
      List.range' (voff + 1) (sceneVerts objs) := by
  intro objs
  induction objs with
  | nil => intro voff moff; simp [sceneParts, sceneVerts]
  | cons obj rest ih =>
    intro voff moff
    by_cases ht : obj.type = "MESH"
    · simp only [sceneParts, if_pos ht, List.map_append, nodesFor_keys, ih]
      have hsv : sceneVerts (obj :: rest) =
          obj.data.vertices.length + sceneVerts rest := by
        simp [sceneVerts, meshVerts, ht]
      rw [hsv,
        show voff + obj.data.vertices.length + 1 = voff + 1 + obj.data.vertices.length
          from by omega]
      exact range'_glue (voff + 1) obj.data.vertices.length (sceneVerts rest)
    · simp only [sceneParts, if_neg ht, ih]
      congr 1
      simp [sceneVerts, meshVerts, ht]

lemma sceneParts_members_keys : ∀ (objs : List BObject) (voff moff : ℕ),
    (sceneParts objs voff moff).2.1.map Prod.fst =
      List.range' (moff + 1) (sceneEdges objs) := by
  intro objs
  induction objs with
  | nil => intro voff moff; simp [sceneParts, sceneEdges]
  | cons obj rest ih =>
    intro voff moff
    by_cases ht : obj.type = "MESH"
    · simp only [sceneParts, if_pos ht, List.map_append, edgesFor_keys, ih]
      have hse : sceneEdges (obj :: rest) =
          obj.data.edges.length + sceneEdges rest := by
        simp [sceneEdges, meshEdges, ht]
      rw [hse,
        show moff + obj.data.edges.length + 1 = moff + 1 + obj.data.edges.length
          from by omega]
      exact range'_glue (moff + 1) obj.data.edges.length (sceneEdges rest)
    · simp only [sceneParts, if_neg ht, ih]
      congr 1
      simp [sceneEdges, meshEdges, ht]

lemma extract_nodes_keys (scene : List BObject) :
    (extract_mesh_data scene).nodes.map Prod.fst = List.range' 1 (sceneVerts scene) := by
  have h := extract_spec scene ⟨[], [], []⟩ (by simp) (by simp) (by simp)
  rw [extract_mesh_data, h]
  simpa using sceneParts_nodes_keys scene 0 0

lemma extract_members_keys (scene : List BObject) :
    (extract_mesh_data scene).members.map Prod.fst =
      List.range' 1 (sceneEdges scene) := by
  have h := extract_spec scene ⟨[], [], []⟩ (by simp) (by simp) (by simp)
  rw [extract_mesh_data, h]
  simpa using sceneParts_members_keys scene 0 0

lemma extract_supports_eq (scene : List BObject) :
    (extract_mesh_data scene).supports = (sceneParts scene 0 0).2.2 := by
  have h := extract_spec scene ⟨[], [], []⟩ (by simp) (by simp) (by simp)
  rw [extract_mesh_data, h]
  rfl

lemma extract_members_eq (scene : List BObject) :
    (extract_mesh_data scene).members = (sceneParts scene 0 0).2.1 := by
  have h := extract_spec scene ⟨[], [], []⟩ (by simp) (by simp) (by simp)
  rw [extract_mesh_data, h]
  rfl

/-- The plates built by `create_plates`, in closed form: the `i`-th spec
    (0-based) becomes plate id `str(i + 1)`. -/
noncomputable def platesFor : List PlateSpec → ℕ → List (String × Plate)
  | [], _ => []
  | spec :: rest, i => (natToStr (i + 1), mkPlate spec) :: platesFor rest (i + 1)

lemma create_plates_aux_spec :
    ∀ (specs : List PlateSpec) (i : ℕ) (plates : List (String × Plate)),
      plates.map Prod.fst = (List.range' 1 i).map natToStr →
      create_plates_aux i specs plates = plates ++ platesFor specs i := by
  intro specs
  induction specs with
  | nil => intro i plates _; simp [create_plates_aux, platesFor]
  | cons spec rest ih =>
    intro i plates hp
    have hfresh : natToStr (i + 1) ∉ plates.map Prod.fst := by
      rw [hp]
      intro h
      obtain ⟨j, hj, hje⟩ := List.mem_map.mp h
      have := natToStr_injective hje
      rw [List.mem_range'_1] at hj
      omega
    have hstep : create_plates_aux i (spec :: rest) plates =
        create_plates_aux (i + 1) rest
          (dinsert plates (natToStr (i + 1)) (mkPlate spec)) := rfl
    rw [hstep, dinsert_fresh _ _ _ hfresh]
    have hp' : (plates ++ [(natToStr (i + 1), mkPlate spec)]).map Prod.fst =
        (List.range' 1 (i + 1)).map natToStr := by
      simp only [List.map_append, hp, List.map_cons, List.map_nil]
      rw [range'_one_concat i, List.map_append]
      simp
    rw [ih (i + 1) _ hp', List.append_assoc]
    congr 1

lemma create_plates_eq (specs : List PlateSpec) :
    create_plates specs = platesFor specs 0 := by
  have h := create_plates_aux_spec specs 0 [] (by simp)
  simpa [create_plates] using h

lemma platesFor_keys : ∀ (specs : List PlateSpec) (i : ℕ),
    (platesFor specs i).map Prod.fst =
      (List.range' (i + 1) specs.length).map natToStr := by
  intro specs
  induction specs with
  | nil => intro i; simp [platesFor]
  | cons spec rest ih =>
    intro i
    simp only [platesFor, List.map_cons, List.length_cons, ih (i + 1)]
    rw [List.range'_succ (i + 1) rest.length 1]
    simp

/-- C5: node ids and member ids are the dense 1-based sequences
    1..total-vertex-count and 1..total-edge-count over all mesh objects of
    the scene (counters continue across objects), and plate ids are the
    dense 1-based sequence "1".."n" over the polygons; in particular each
    vertex gets exactly one node id. -/
theorem C5_dense_sequential_ids (scene : List BObject) (mesh : BMesh) :
    (extract_mesh_data scene).nodes.map Prod.fst = List.range' 1 (sceneVerts scene) ∧
    (extract_mesh_data scene).members.map Prod.fst =
      List.range' 1 (sceneEdges scene) ∧
    (create_plates_from_mesh_data mesh).map Prod.fst =
      (List.range' 1 mesh.polygons.length).map natToStr := by
  refine ⟨extract_nodes_keys scene, extract_members_keys scene, ?_⟩
  rw [create_plates_from_mesh_data, create_plates_eq, platesFor_keys]
  simp

lemma platesFor_lookup : ∀ (specs : List PlateSpec) (i j : ℕ) (spec : PlateSpec),
    specs.get? j = some spec →
    List.lookup (natToStr (i + j + 1)) (platesFor specs i) = some (mkPlate spec) := by
  intro specs
  induction specs with
  | nil => intro i j spec h; simp at h
  | cons s rest ih =>
    intro i j spec h
    cases j with
    | zero =>
      simp only [List.get?] at h
      obtain rfl : s = spec := by injection h
      simp [platesFor, List.lookup]
    | succ j' =>
      simp only [List.get?] at h
      have hne : natToStr (i + (j' + 1) + 1) ≠ natToStr (i + 1) := by
        intro he
        have := natToStr_injective he
        omega
      have hbeq : (natToStr (i + (j' + 1) + 1) == natToStr (i + 1)) = false :=
        beq_eq_false_iff_ne.mpr hne
      simp only [platesFor, List.lookup, hbeq]
      have hrec := ih (i + 1) j' spec h
      rw [show i + 1 + j' + 1 = i + (j' + 1) + 1 from by omega] at hrec
      exact hrec

/-- C8 (amended): the plate built for the `j`-th polygon has id
    `str(j + 1)`, a comma-joined node list consisting of ALL the polygon's
    vertex indices converted to 1-based references (`str(i + 1)` each) —
    not only the first three — and constant default values for every other
    attribute. -/
theorem C8_plate_from_polygon (mesh : BMesh) (j : ℕ) (poly : BPolygon)
    (hj : mesh.polygons.get? j = some poly) :
    List.lookup (natToStr (j + 1)) (create_plates_from_mesh_data mesh) =
      some { nodes := joinComma (poly.vertices.map (fun i => natToStr (i + 1))),
             thickness := 0.39370078740157477, material_id := 3, rotZ := 0,
             type := "auto", diaphragm := "no", offset := 0, state := "stress",
             drilling_stiffness_factor := 1, holes := [],
             diaphragm_internal_nodes := none, diaphragm_fixity := "auto",
             membrane_thickness := "", bending_thickness := "",
             shear_thickness := "", isMeshed := false } := by
  rw [create_plates_from_mesh_data, create_plates_eq]
  have hspec : (mesh.polygons.map (fun poly =>
      ({ nodes := some (joinComma (poly.vertices.map (fun i => natToStr (i + 1))))
         thickness := some 0.39370078740157477
         material_id := some 3 } : PlateSpec))).get? j =
      some { nodes := some (joinComma (poly.vertices.map (fun i => natToStr (i + 1))))
             thickness := some 0.39370078740157477
             material_id := some 3 } := by
    rw [List.get?_map, hj]
    rfl
  have h := platesFor_lookup _ 0 j _ hspec
  rw [show (0 : ℕ) + j + 1 = j + 1 from by omega] at h
  rw [h]
  simp [mkPlate]

theorem C8_witness :
    (⟨[⟨⟨0, 0, 0⟩⟩, ⟨⟨1, 0, 0⟩⟩, ⟨⟨0, 1, 0⟩⟩], [], [⟨[0, 1, 2]⟩]⟩ : BMesh).polygons.get? 0 =
      some ⟨[0, 1, 2]⟩ ∧
    List.lookup (natToStr (0 + 1))
        (create_plates_from_mesh_data
          ⟨[⟨⟨0, 0, 0⟩⟩, ⟨⟨1, 0, 0⟩⟩, ⟨⟨0, 1, 0⟩⟩], [], [⟨[0, 1, 2]⟩]⟩) =
      some { nodes := joinComma (([0, 1, 2] : List ℕ).map (fun i => natToStr (i + 1))),
             thickness := 0.39370078740157477, material_id := 3, rotZ := 0,
             type := "auto", diaphragm := "no", offset := 0, state := "stress",
             drilling_stiffness_factor := 1, holes := [],
             diaphragm_internal_nodes := none, diaphragm_fixity := "auto",
             membrane_thickness := "", bending_thickness := "",
             shear_thickness := "", isMeshed := false } := by
  have hj : (⟨[⟨⟨0, 0, 0⟩⟩, ⟨⟨1, 0, 0⟩⟩, ⟨⟨0, 1, 0⟩⟩], [], [⟨[0, 1, 2]⟩]⟩ :
      BMesh).polygons.get? 0 = some ⟨[0, 1, 2]⟩ := rfl
  exact ⟨hj, C8_plate_from_polygon _ 0 ⟨[0, 1, 2]⟩ hj⟩

theorem C8_counterexample :
    (create_plates_from_mesh_data
        ⟨[⟨⟨0, 0, 0⟩⟩, ⟨⟨1, 0, 0⟩⟩, ⟨⟨1, 1, 0⟩⟩, ⟨⟨0, 1, 0⟩⟩], [],
          [⟨[0, 1, 2, 3]⟩]⟩).map (fun p => (p.1, p.2.nodes)) = [("1", "1,2,3,4")] ∧
    ("1,2,3,4" : String) ≠ "1,2,3" := by
  constructor
  · rw [create_plates_from_mesh_data, create_plates_eq]
    decide
  · decide

lemma lookup_eq_none_iff {α : Type} :
    ∀ (l : List (ℕ × α)) (k : ℕ), List.lookup k l = none ↔ k ∉ l.map Prod.fst := by
  intro l
  induction l with
  | nil => intro k; simp
  | cons p rest ih =>
    intro k
    obtain ⟨a, b⟩ := p
    by_cases hka : k = a
    · subst hka
      simp [List.lookup]
    · have hbeq : (k == a) = false := beq_eq_false_iff_ne.mpr hka
      simp only [List.lookup, hbeq, List.map_cons, List.mem_cons]
      rw [ih k]
      constructor
      · intro h hmem
        rcases hmem with h2 | h2
        · exact hka h2
        · exact h h2
      · intro h h2
        exact h (Or.inr h2)

lemma lookup_append_of_not_mem_left {α : Type} :
    ∀ (l1 l2 : List (ℕ × α)) (k : ℕ), k ∉ l1.map Prod.fst →
      List.lookup k (l1 ++ l2) = List.lookup k l2 := by
  intro l1
  induction l1 with
  | nil => intro l2 k _; simp
  | cons p rest ih =>
    intro l2 k h
    obtain ⟨a, b⟩ := p
    simp only [List.map_cons, List.mem_cons, not_or] at h
    have hbeq : (k == a) = false := beq_eq_false_iff_ne.mpr h.1
    simp only [List.cons_append, List.lookup, hbeq]
    exact ih l2 k h.2

lemma lookup_append_of_some {α : Type} :
    ∀ (l1 l2 : List (ℕ × α)) (k : ℕ) (v : α), List.lookup k l1 = some v →
      List.lookup k (l1 ++ l2) = some v := by
  intro l1
  induction l1 with
  | nil => intro l2 k v h; simp at h
  | cons p rest ih =>
    intro l2 k v h
    obtain ⟨a, b⟩ := p
    by_cases hka : k = a
    · subst hka
      simp only [List.lookup, beq_self_eq_true] at h ⊢
      simpa using h
    · have hbeq : (k == a) = false := beq_eq_false_iff_ne.mpr hka
      simp only [List.lookup, hbeq] at h ⊢
      exact ih l2 k v h

lemma supportsFor_lookup : ∀ (vs : List BVertex) (off j : ℕ) (v : BVertex),
    vs.get? j = some v →
    List.lookup (off + j + 1) (supportsFor vs off) =
      (if v.co.z = 0 then some (mkSupport (off + j + 1)) else none) := by
  intro vs
  induction vs with
  | nil => intro off j v h; simp at h
  | cons w rest ih =>
    intro off j v h
    cases j with
    | zero =>
      obtain rfl : v = w := by injection h with hh; exact hh.symm
      by_cases hz : v.co.z = 0
      · rw [if_pos hz]
        simp only [supportsFor, if_pos hz, List.singleton_append]
        show List.lookup (off + 0 + 1)
          ((off + 1, mkSupport (off + 1)) :: supportsFor rest (off + 1)) = _
        simp [List.lookup]
      · rw [if_neg hz]
        simp only [supportsFor, if_neg hz, List.nil_append]
        rw [lookup_eq_none_iff]
        intro hmem
        have := supportsFor_keys_bound rest (off + 1) _ hmem
        omega
    | succ j' =>
      have h' : rest.get? j' = some v := h
      have hrec := ih (off + 1) j' v h'
      rw [show off + 1 + j' + 1 = off + (j' + 1) + 1 from by omega] at hrec
      by_cases hz : w.co.z = 0
      · simp only [supportsFor, if_pos hz, List.singleton_append]
        have hbeq : (off + (j' + 1) + 1 == off + 1) = false := by
          rw [beq_eq_false_iff_ne]
          omega
        simp only [List.lookup, hbeq]
        exact hrec
      · simp only [supportsFor, if_neg hz, List.nil_append]
        exact hrec

lemma supportsFor_keys_nodup : ∀ (vs : List BVertex) (off : ℕ),
    ((supportsFor vs off).map Prod.fst).Nodup := by
  intro vs
  induction vs with
  | nil => intro off; simp [supportsFor]
  | cons w rest ih =>
    intro off
    by_cases hz : w.co.z = 0
    · simp only [supportsFor, if_pos hz, List.singleton_append, List.map_cons,
        List.nodup_cons]
      refine ⟨?_, ih (off + 1)⟩
      intro hmem
      have := supportsFor_keys_bound rest (off + 1) _ hmem
      omega
    · simp only [supportsFor, if_neg hz, List.nil_append]
      exact ih (off + 1)

lemma sceneParts_supports_bound : ∀ (objs : List BObject) (voff moff k : ℕ),
    k ∈ (sceneParts objs voff moff).2.2.map Prod.fst →
    voff < k ∧ k ≤ voff + sceneVerts objs := by
  intro objs
  induction objs with
  | nil => intro voff moff k h; simp [sceneParts] at h
  | cons obj rest ih =>
    intro voff moff k h
    by_cases ht : obj.type = "MESH"
    · simp only [sceneParts, if_pos ht, List.map_append, List.mem_append] at h
      have hsv : sceneVerts (obj :: rest) =
          obj.data.vertices.length + sceneVerts rest := by
        simp [sceneVerts, meshVerts, ht]
      rcases h with h | h
      · have := supportsFor_keys_bound obj.data.vertices voff k h
        omega
      · have := ih (voff + obj.data.vertices.length) (moff + obj.data.edges.length) k h
        omega
    · simp only [sceneParts, if_neg ht] at h
      have := ih voff moff k h
      have hsv : sceneVerts (obj :: rest) = sceneVerts rest := by
        simp [sceneVerts, meshVerts, ht]
      omega

lemma sceneParts_supports_nodup : ∀ (objs : List BObject) (voff moff : ℕ),
    ((sceneParts objs voff moff).2.2.map Prod.fst).Nodup := by
  intro objs
  induction objs with
  | nil => intro voff moff; simp [sceneParts]
  | cons obj rest ih =>
    intro voff moff
    by_cases ht : obj.type = "MESH"
    · simp only [sceneParts, if_pos ht, List.map_append]
      rw [List.nodup_append]
      refine ⟨supportsFor_keys_nodup _ _, ih _ _, ?_⟩
      intro k hk hk'
      have h1 := supportsFor_keys_bound obj.data.vertices voff k hk
      have h2 := sceneParts_supports_bound rest
        (voff + obj.data.vertices.length) (moff + obj.data.edges.length) k hk'
      omega
    · simp only [sceneParts, if_neg ht]
      exact ih voff moff

/-- Number of nodes assigned before object `k` of the scene is processed. -/
def vertsBefore (scene : List BObject) (k : ℕ) : ℕ := sceneVerts (scene.take k)

/-- Number of members assigned before object `k` of the scene is processed. -/
def edgesBefore (scene : List BObject) (k : ℕ) : ℕ := sceneEdges (scene.take k)

lemma sceneParts_supports_lookup :
    ∀ (objs : List BObject) (voff moff k : ℕ) (obj : BObject),
      objs.get? k = some obj → obj.type = "MESH" →
      ∀ (i : ℕ) (v : BVertex), obj.data.vertices.get? i = some v →
      List.lookup (voff + sceneVerts (objs.take k) + i + 1)
          (sceneParts objs voff moff).2.2 =
        (if v.co.z = 0 then
          some (mkSupport (voff + sceneVerts (objs.take k) + i + 1)) else none) := by
  intro objs
  induction objs with
  | nil => intro voff moff k obj h; simp at h
  | cons o rest ih =>
    intro voff moff k obj hk htype i v hv
    cases k with
    | zero =>
      obtain rfl : o = obj := by injection hk
      have hkey : voff + sceneVerts ((o :: rest).take 0) + i + 1 = voff + i + 1 := by
        simp [sceneVerts]
      rw [hkey]
      have hi : i < o.data.vertices.length := by
        rcases List.get?_eq_some.mp hv with ⟨hlt, _⟩
        exact hlt
      have hparts : (sceneParts (o :: rest) voff moff).2.2 =
          supportsFor o.data.vertices voff ++
            (sceneParts rest (voff + o.data.vertices.length)
              (moff + o.data.edges.length)).2.2 := by
        simp only [sceneParts, if_pos htype]
      rw [hparts]
      have hlook := supportsFor_lookup o.data.vertices voff i v hv
      by_cases hz : v.co.z = 0
      · rw [if_pos hz] at hlook ⊢
        exact lookup_append_of_some _ _ _ _ hlook
      · rw [if_neg hz] at hlook ⊢
        rw [lookup_append_of_not_mem_left _ _ _ ((lookup_eq_none_iff _ _).mp hlook)]
        rw [lookup_eq_none_iff]
        intro hmem
        have := sceneParts_supports_bound rest
          (voff + o.data.vertices.length) (moff + o.data.edges.length) _ hmem
        omega
    | succ k' =>
      have hk' : rest.get? k' = some obj := hk
      by_cases hto : o.type = "MESH"
      · have hkey : voff + sceneVerts ((o :: rest).take (k' + 1)) + i + 1 =
            (voff + o.data.vertices.length) + sceneVerts (rest.take k') + i + 1 := by
          simp only [List.take_succ_cons, sceneVerts, List.map_cons, List.sum_cons,
            meshVerts, if_pos hto]
          omega
        rw [hkey]
        have hparts : (sceneParts (o :: rest) voff moff).2.2 =
            supportsFor o.data.vertices voff ++
              (sceneParts rest (voff + o.data.vertices.length)
                (moff + o.data.edges.length)).2.2 := by
          simp only [sceneParts, if_pos hto]
        rw [hparts]
        have hnotmem : (voff + o.data.vertices.length) + sceneVerts (rest.take k') +
            i + 1 ∉ (supportsFor o.data.vertices voff).map Prod.fst := by
          intro hmem
          have := supportsFor_keys_bound o.data.vertices voff _ hmem
          omega
        rw [lookup_append_of_not_mem_left _ _ _ hnotmem]
        exact ih (voff + o.data.vertices.length) (moff + o.data.edges.length)
          k' obj hk' htype i v hv
      · have hkey : voff + sceneVerts ((o :: rest).take (k' + 1)) + i + 1 =
            voff + sceneVerts (rest.take k') + i + 1 := by
          simp only [List.take_succ_cons, sceneVerts, List.map_cons, List.sum_cons,
            meshVerts, if_neg hto]
          omega
        rw [hkey]
        have hparts : (sceneParts (o :: rest) voff moff).2.2 =
            (sceneParts rest voff moff).2.2 := by
          simp only [sceneParts, if_neg hto]
        rw [hparts]
        exact ih voff moff k' obj hk' htype i v hv

lemma mem_keys_of_lookup_some {α : Type} :
    ∀ (l : List (ℕ × α)) (k : ℕ) (v : α), List.lookup k l = some v →
      k ∈ l.map Prod.fst := by
  intro l k v h
  by_contra hnot
  rw [← lookup_eq_none_iff] at hnot
  rw [hnot] at h
  exact Option.noConfusion h

/-- C6: a vertex gets a support entry keyed to its node id if and only if
    its source z-coordinate is exactly 0 (no tolerance: any nonzero source
    z gives no entry), a qualifying vertex gets exactly one entry, and the
    entry carries the fixed restraint codes (the `mkSupport` record). -/
theorem C6_support_iff_ground (scene : List BObject) (k : ℕ) (obj : BObject)
    (hk : scene.get? k = some obj) (htype : obj.type = "MESH")
    (i : ℕ) (v : BVertex) (hv : obj.data.vertices.get? i = some v) :
    List.lookup (vertsBefore scene k + i + 1) (extract_mesh_data scene).supports =
      (if v.co.z = 0 then some (mkSupport (vertsBefore scene k + i + 1)) else none) ∧
    ((extract_mesh_data scene).supports.map Prod.fst).count
        (vertsBefore scene k + i + 1) = (if v.co.z = 0 then 1 else 0) := by
  rw [extract_supports_eq]
  have hlook := sceneParts_supports_lookup scene 0 0 k obj hk htype i v hv
  rw [show (0 : ℕ) + sceneVerts (scene.take k) + i + 1 =
    sceneVerts (scene.take k) + i + 1 from by omega] at hlook
  have hlook' : List.lookup (vertsBefore scene k + i + 1) (sceneParts scene 0 0).2.2 =
      (if v.co.z = 0 then some (mkSupport (vertsBefore scene k + i + 1)) else none) := by
    rw [vertsBefore]
    exact hlook
  refine ⟨hlook', ?_⟩
  by_cases hz : v.co.z = 0
  · rw [if_pos hz]
    rw [if_pos hz] at hlook'
    exact List.count_eq_one_of_mem (sceneParts_supports_nodup scene 0 0)
      (mem_keys_of_lookup_some _ _ _ hlook')
  · rw [if_neg hz]
    rw [if_neg hz] at hlook'
    exact List.count_eq_zero.mpr ((lookup_eq_none_iff _ _).mp hlook')

theorem C6_witness :
    ([⟨"MESH", ⟨[⟨⟨2, 3, 0⟩⟩], [], []⟩⟩] : List BObject).get? 0 =
      some ⟨"MESH", ⟨[⟨⟨2, 3, 0⟩⟩], [], []⟩⟩ ∧
    (⟨"MESH", ⟨[⟨⟨2, 3, 0⟩⟩], [], []⟩⟩ : BObject).type = "MESH" ∧
    (⟨"MESH", ⟨[⟨⟨2, 3, 0⟩⟩], [], []⟩⟩ : BObject).data.vertices.get? 0 =
      some ⟨⟨2, 3, 0⟩⟩ ∧
    List.lookup (vertsBefore [⟨"MESH", ⟨[⟨⟨2, 3, 0⟩⟩], [], []⟩⟩] 0 + 0 + 1)
        (extract_mesh_data [⟨"MESH", ⟨[⟨⟨2, 3, 0⟩⟩], [], []⟩⟩]).supports =
      (if (Vec3.mk 2 3 0).z = 0 then
        some (mkSupport (vertsBefore [⟨"MESH", ⟨[⟨⟨2, 3, 0⟩⟩], [], []⟩⟩] 0 + 0 + 1))
      else none) := by
  have hk : ([⟨"MESH", ⟨[⟨⟨2, 3, 0⟩⟩], [], []⟩⟩] : List BObject).get? 0 =
      some ⟨"MESH", ⟨[⟨⟨2, 3, 0⟩⟩], [], []⟩⟩ := rfl
  have htype : (⟨"MESH", ⟨[⟨⟨2, 3, 0⟩⟩], [], []⟩⟩ : BObject).type = "MESH" := rfl
  have hv : (⟨"MESH", ⟨[⟨⟨2, 3, 0⟩⟩], [], []⟩⟩ : BObject).data.vertices.get? 0 =
      some ⟨⟨2, 3, 0⟩⟩ := rfl
  have h := C6_support_iff_ground [⟨"MESH", ⟨[⟨⟨2, 3, 0⟩⟩], [], []⟩⟩] 0
    ⟨"MESH", ⟨[⟨⟨2, 3, 0⟩⟩], [], []⟩⟩ hk htype 0 ⟨⟨2, 3, 0⟩⟩ hv
  exact ⟨hk, htype, hv, h.1⟩

lemma vmapFor_lookup : ∀ (m off a : ℕ), a < m →
    List.lookup a (vmapFor m off) = some (off + 1 + a) := by
  intro m
  induction m with
  | zero => intro off a h; exact absurd h (Nat.not_lt_zero a)
  | succ m ih =>
    intro off a h
    rw [vmapFor, List.range_succ, List.map_append]
    by_cases ham : a < m
    · have hrec := ih off a ham
      rw [vmapFor] at hrec
      exact lookup_append_of_some _ _ _ _ hrec
    · have ha : a = m := by omega
      subst ha
      have hnot : a ∉ ((List.range a).map (fun j => (j, off + 1 + j))).map Prod.fst := by
        have hkeys : ((List.range a).map (fun j => (j, off + 1 + j))).map Prod.fst =
            List.range a := by
          rw [List.map_map]
          have hfun : (Prod.fst ∘ fun j : ℕ => (j, off + 1 + j)) = fun j : ℕ => j := by
            funext j
            rfl
          rw [hfun]
          exact List.map_id _
        rw [hkeys, List.mem_range]
        omega
      rw [lookup_append_of_not_mem_left _ _ _ hnot]
      simp [List.lookup]

lemma edgesFor_lookup : ∀ (es : List BEdge) (vmap : List (ℕ × ℕ)) (moff j : ℕ)
    (e : BEdge), es.get? j = some e →
    List.lookup (moff + j + 1) (edgesFor es vmap moff) =
      some (mkMember ((vmap.lookup e.vertices.1).getD 0)
        ((vmap.lookup e.vertices.2).getD 0)) := by
  intro es
  induction es with
  | nil => intro vmap moff j e h; simp at h
  | cons e0 rest ih =>
    intro vmap moff j e h
    cases j with
    | zero =>
      obtain rfl : e0 = e := by injection h
      simp [edgesFor, List.lookup]
    | succ j' =>
      have h' : rest.get? j' = some e := h
      have hbeq : (moff + (j' + 1) + 1 == moff + 1) = false := by
        rw [beq_eq_false_iff_ne]
        omega
      simp only [edgesFor, List.lookup, hbeq]
      have hrec := ih vmap (moff + 1) j' e h'
      rw [show moff + 1 + j' + 1 = moff + (j' + 1) + 1 from by omega] at hrec
      exact hrec

lemma sceneParts_members_lookup :
    ∀ (objs : List BObject) (voff moff k : ℕ) (obj : BObject),
      objs.get? k = some obj → obj.type = "MESH" →
      ∀ (j : ℕ) (e : BEdge), obj.data.edges.get? j = some e →
      List.lookup (moff + sceneEdges (objs.take k) + j + 1)
          (sceneParts objs voff moff).2.1 =
        some (mkMember (((vmapFor obj.data.vertices.length
              (voff + sceneVerts (objs.take k))).lookup e.vertices.1).getD 0)
          (((vmapFor obj.data.vertices.length
              (voff + sceneVerts (objs.take k))).lookup e.vertices.2).getD 0)) := by
  intro objs
  induction objs with
  | nil => intro voff moff k obj h; simp at h
  | cons o rest ih =>
    intro voff moff k obj hk htype j e he
    cases k with
    | zero =>
      obtain rfl : o = obj := by injection hk
      have hkey : moff + sceneEdges ((o :: rest).take 0) + j + 1 = moff + j + 1 := by
        simp [sceneEdges]
      have hvoff : voff + sceneVerts ((o :: rest).take 0) = voff := by
        simp [sceneVerts]
      rw [hkey, hvoff]
      have hparts : (sceneParts (o :: rest) voff moff).2.1 =
          edgesFor o.data.edges (vmapFor o.data.vertices.length voff) moff ++
            (sceneParts rest (voff + o.data.vertices.length)
              (moff + o.data.edges.length)).2.1 := by
        simp only [sceneParts, if_pos htype]
      rw [hparts]
      exact lookup_append_of_some _ _ _ _
        (edgesFor_lookup o.data.edges (vmapFor o.data.vertices.length voff) moff j e he)
    | succ k' =>
      have hk' : rest.get? k' = some obj := hk
      by_cases hto : o.type = "MESH"
      · have hkey : moff + sceneEdges ((o :: rest).take (k' + 1)) + j + 1 =
            (moff + o.data.edges.length) + sceneEdges (rest.take k') + j + 1 := by
          simp only [List.take_succ_cons, sceneEdges, List.map_cons, List.sum_cons,
            meshEdges, if_pos hto]
          omega
        have hvoff : voff + sceneVerts ((o :: rest).take (k' + 1)) =
            (voff + o.data.vertices.length) + sceneVerts (rest.take k') := by
          simp only [List.take_succ_cons, sceneVerts, List.map_cons, List.sum_cons,
            meshVerts, if_pos hto]
          omega
        rw [hkey, hvoff]
        have hparts : (sceneParts (o :: rest) voff moff).2.1 =
            edgesFor o.data.edges (vmapFor o.data.vertices.length voff) moff ++
              (sceneParts rest (voff + o.data.vertices.length)
                (moff + o.data.edges.length)).2.1 := by
          simp only [sceneParts, if_pos hto]
        rw [hparts]
        have hnotmem : (moff + o.data.edges.length) + sceneEdges (rest.take k') +
            j + 1 ∉ (edgesFor o.data.edges
              (vmapFor o.data.vertices.length voff) moff).map Prod.fst := by
          rw [edgesFor_keys]
          intro hmem
          rw [List.mem_range'_1] at hmem
          omega
        rw [lookup_append_of_not_mem_left _ _ _ hnotmem]
        exact ih (voff + o.data.vertices.length) (moff + o.data.edges.length)
          k' obj hk' htype j e he
      · have hkey : moff + sceneEdges ((o :: rest).take (k' + 1)) + j + 1 =
            moff + sceneEdges (rest.take k') + j + 1 := by
          simp only [List.take_succ_cons, sceneEdges, List.map_cons, List.sum_cons,
            meshEdges, if_neg hto]
          omega
        have hvoff : voff + sceneVerts ((o :: rest).take (k' + 1)) =
            voff + sceneVerts (rest.take k') := by
          simp only [List.take_succ_cons, sceneVerts, List.map_cons, List.sum_cons,
            meshVerts, if_neg hto]
          omega
        rw [hkey, hvoff]
        have hparts : (sceneParts (o :: rest) voff moff).2.1 =
            (sceneParts rest voff moff).2.1 := by
          simp only [sceneParts, if_neg hto]
        rw [hparts]
        exact ih voff moff k' obj hk' htype j e he

lemma sceneVerts_cons (o : BObject) (rest : List BObject) :
    sceneVerts (o :: rest) = meshVerts o + sceneVerts rest := by
  simp [sceneVerts]

lemma vertsBefore_add_le : ∀ (scene : List BObject) (k : ℕ) (obj : BObject),
    scene.get? k = some obj →
    vertsBefore scene k + meshVerts obj ≤ sceneVerts scene := by
  intro scene
  induction scene with
  | nil => intro k obj h; simp at h
  | cons o rest ih =>
    intro k obj hk
    cases k with
    | zero =>
      obtain rfl : o = obj := by injection hk
      simp only [vertsBefore, List.take_zero, sceneVerts, List.map_nil, List.sum_nil,
        List.map_cons, List.sum_cons]
      omega
    | succ k' =>
      have hk' : rest.get? k' = some obj := hk
      have hrec := ih k' obj hk'
      simp only [vertsBefore, List.take_succ_cons, sceneVerts_cons, sceneVerts,
        List.map_cons, List.sum_cons] at *
      omega

/-- C9: a member produced from an edge whose two vertex indices are
    distinct and within the object's vertex list gets the two distinct
    node ids the per-object vertex map assigns to those indices, and both
    ids are node ids that exist in the produced node set. -/
theorem C9_member_endpoints (scene : List BObject) (k : ℕ) (obj : BObject)
    (hk : scene.get? k = some obj) (htype : obj.type = "MESH")
    (j : ℕ) (e : BEdge) (he : obj.data.edges.get? j = some e)
    (hne : e.vertices.1 ≠ e.vertices.2)
    (hin1 : e.vertices.1 < obj.data.vertices.length)
    (hin2 : e.vertices.2 < obj.data.vertices.length) :
    List.lookup (edgesBefore scene k + j + 1) (extract_mesh_data scene).members =
      some (mkMember (vertsBefore scene k + e.vertices.1 + 1)
        (vertsBefore scene k + e.vertices.2 + 1)) ∧
    vertsBefore scene k + e.vertices.1 + 1 ≠ vertsBefore scene k + e.vertices.2 + 1 ∧
    vertsBefore scene k + e.vertices.1 + 1 ∈
      (extract_mesh_data scene).nodes.map Prod.fst ∧
    vertsBefore scene k + e.vertices.2 + 1 ∈
      (extract_mesh_data scene).nodes.map Prod.fst := by
  have hlook := sceneParts_members_lookup scene 0 0 k obj hk htype j e he
  have hv1 := vmapFor_lookup obj.data.vertices.length
    (0 + sceneVerts (scene.take k)) e.vertices.1 hin1
  have hv2 := vmapFor_lookup obj.data.vertices.length
    (0 + sceneVerts (scene.take k)) e.vertices.2 hin2
  rw [hv1, hv2] at hlook
  have hmle : vertsBefore scene k + obj.data.vertices.length ≤ sceneVerts scene := by
    have h := vertsBefore_add_le scene k obj hk
    rwa [show meshVerts obj = obj.data.vertices.length from by
      simp [meshVerts, htype]] at h
  refine ⟨?_, by omega, ?_, ?_⟩
  · rw [extract_members_eq]
    rw [show edgesBefore scene k + j + 1 = 0 + sceneEdges (scene.take k) + j + 1 from by
      simp [edgesBefore]]
    rw [hlook]
    simp only [Option.getD_some]
    rw [show 0 + sceneVerts (scene.take k) + 1 + e.vertices.1 =
      vertsBefore scene k + e.vertices.1 + 1 from by simp [vertsBefore]; omega]
    rw [show 0 + sceneVerts (scene.take k) + 1 + e.vertices.2 =
      vertsBefore scene k + e.vertices.2 + 1 from by simp [vertsBefore]; omega]
  · rw [extract_nodes_keys, List.mem_range'_1]
    omega
  · rw [extract_nodes_keys, List.mem_range'_1]
    omega

theorem C9_witness :
    ([⟨"MESH", ⟨[⟨⟨0, 0, 0⟩⟩, ⟨⟨1, 0, 0⟩⟩], [⟨(0, 1)⟩], []⟩⟩] : List BObject).get? 0 =
      some ⟨"MESH", ⟨[⟨⟨0, 0, 0⟩⟩, ⟨⟨1, 0, 0⟩⟩], [⟨(0, 1)⟩], []⟩⟩ ∧
    ((⟨(0, 1)⟩ : BEdge).vertices.1 ≠ (⟨(0, 1)⟩ : BEdge).vertices.2) ∧
    List.lookup (edgesBefore [⟨"MESH", ⟨[⟨⟨0, 0, 0⟩⟩, ⟨⟨1, 0, 0⟩⟩], [⟨(0, 1)⟩], []⟩⟩] 0
          + 0 + 1)
        (extract_mesh_data
          [⟨"MESH", ⟨[⟨⟨0, 0, 0⟩⟩, ⟨⟨1, 0, 0⟩⟩], [⟨(0, 1)⟩], []⟩⟩]).members =
      some (mkMember
        (vertsBefore [⟨"MESH", ⟨[⟨⟨0, 0, 0⟩⟩, ⟨⟨1, 0, 0⟩⟩], [⟨(0, 1)⟩], []⟩⟩] 0 +
          (⟨(0, 1)⟩ : BEdge).vertices.1 + 1)
        (vertsBefore [⟨"MESH", ⟨[⟨⟨0, 0, 0⟩⟩, ⟨⟨1, 0, 0⟩⟩], [⟨(0, 1)⟩], []⟩⟩] 0 +
          (⟨(0, 1)⟩ : BEdge).vertices.2 + 1)) := by
  have hk : ([⟨"MESH", ⟨[⟨⟨0, 0, 0⟩⟩, ⟨⟨1, 0, 0⟩⟩], [⟨(0, 1)⟩], []⟩⟩] :
      List BObject).get? 0 =
      some ⟨"MESH", ⟨[⟨⟨0, 0, 0⟩⟩, ⟨⟨1, 0, 0⟩⟩], [⟨(0, 1)⟩], []⟩⟩ := rfl
  have htype : (⟨"MESH", ⟨[⟨⟨0, 0, 0⟩⟩, ⟨⟨1, 0, 0⟩⟩], [⟨(0, 1)⟩], []⟩⟩ :
      BObject).type = "MESH" := rfl
  have he : (⟨"MESH", ⟨[⟨⟨0, 0, 0⟩⟩, ⟨⟨1, 0, 0⟩⟩], [⟨(0, 1)⟩], []⟩⟩ :
      BObject).data.edges.get? 0 = some ⟨(0, 1)⟩ := rfl
  have hne : (⟨(0, 1)⟩ : BEdge).vertices.1 ≠ (⟨(0, 1)⟩ : BEdge).vertices.2 := by decide
  have hin1 : (⟨(0, 1)⟩ : BEdge).vertices.1 <
      (⟨"MESH", ⟨[⟨⟨0, 0, 0⟩⟩, ⟨⟨1, 0, 0⟩⟩], [⟨(0, 1)⟩], []⟩⟩ :
        BObject).data.vertices.length := by decide
  have hin2 : (⟨(0, 1)⟩ : BEdge).vertices.2 <
      (⟨"MESH", ⟨[⟨⟨0, 0, 0⟩⟩, ⟨⟨1, 0, 0⟩⟩], [⟨(0, 1)⟩], []⟩⟩ :
        BObject).data.vertices.length := by decide
  have h := C9_member_endpoints [⟨"MESH", ⟨[⟨⟨0, 0, 0⟩⟩, ⟨⟨1, 0, 0⟩⟩], [⟨(0, 1)⟩], []⟩⟩]
    0 ⟨"MESH", ⟨[⟨⟨0, 0, 0⟩⟩, ⟨⟨1, 0, 0⟩⟩], [⟨(0, 1)⟩], []⟩⟩ hk htype 0 ⟨(0, 1)⟩
    he hne hin1 hin2
  exact ⟨hk, hne, h.1⟩

/-- C1: on the scene with one mesh of vertices (0,0,0), (1,0,0), (0,1,0),
    one edge 0-1 and one triangle (0,1,2), the pipeline produces exactly
    the three nodes with source y and z swapped, one member with
    node_A = 1 and node_B = 2, three supports (every source z is 0), one
    plate with node string "1,2,3", and one area load with direction "Y"
    and magnitude 0.15. -/
theorem C1_end_to_end :
    (extract_mesh_data [⟨"MESH", ⟨[⟨⟨0, 0, 0⟩⟩, ⟨⟨1, 0, 0⟩⟩, ⟨⟨0, 1, 0⟩⟩],
        [⟨(0, 1)⟩], [⟨[0, 1, 2]⟩]⟩⟩]).nodes =
      [(1, ⟨0, 0, 0⟩), (2, ⟨1, 0, 0⟩), (3, ⟨0, 0, 1⟩)] ∧
    (extract_mesh_data [⟨"MESH", ⟨[⟨⟨0, 0, 0⟩⟩, ⟨⟨1, 0, 0⟩⟩, ⟨⟨0, 1, 0⟩⟩],
        [⟨(0, 1)⟩], [⟨[0, 1, 2]⟩]⟩⟩]).members.map
      (fun p => (p.1, p.2.node_A, p.2.node_B)) = [(1, 1, 2)] ∧
    (extract_mesh_data [⟨"MESH", ⟨[⟨⟨0, 0, 0⟩⟩, ⟨⟨1, 0, 0⟩⟩, ⟨⟨0, 1, 0⟩⟩],
        [⟨(0, 1)⟩], [⟨[0, 1, 2]⟩]⟩⟩]).supports.map Prod.fst = [1, 2, 3] ∧
    (create_plates_from_mesh_data ⟨[⟨⟨0, 0, 0⟩⟩, ⟨⟨1, 0, 0⟩⟩, ⟨⟨0, 1, 0⟩⟩],
        [⟨(0, 1)⟩], [⟨[0, 1, 2]⟩]⟩).map (fun p => (p.1, p.2.nodes)) =
      [("1", "1,2,3")] ∧
    (add_loads_to_plates
        (create_plates_from_mesh_data ⟨[⟨⟨0, 0, 0⟩⟩, ⟨⟨1, 0, 0⟩⟩, ⟨⟨0, 1, 0⟩⟩],
          [⟨(0, 1)⟩], [⟨[0, 1, 2]⟩]⟩)
        ⟨[⟨⟨0, 0, 0⟩⟩, ⟨⟨1, 0, 0⟩⟩, ⟨⟨0, 1, 0⟩⟩], [⟨(0, 1)⟩], [⟨[0, 1, 2]⟩]⟩).map
      (fun p => (p.1, p.2.direction, p.2.mag)) = [("1", "Y", 0.15)] := by
  have hextract := extract_spec [⟨"MESH", ⟨[⟨⟨0, 0, 0⟩⟩, ⟨⟨1, 0, 0⟩⟩, ⟨⟨0, 1, 0⟩⟩],
      [⟨(0, 1)⟩], [⟨[0, 1, 2]⟩]⟩⟩] ⟨[], [], []⟩ (by simp) (by simp) (by simp)
  have hvm : List.lookup 0 [(0, 1), (1, 2), (2, 3)] = some 1 := by decide
  have hvm2 : List.lookup 1 [(0, 1), (1, 2), (2, 3)] = some 2 := by decide
  have hvmap : vmapFor 3 0 = [(0, 1), (1, 2), (2, 3)] := by decide
  refine ⟨?_, ?_, ?_, ?_, ?_⟩
  · rw [extract_mesh_data, hextract]
    show [] ++ (sceneParts _ 0 0).1 = _
    rw [List.nil_append]
    simp [sceneParts, nodesFor, mkNode]
  · rw [extract_mesh_data, hextract]
    show ([] ++ (sceneParts _ 0 0).2.1).map _ = _
    rw [List.nil_append]
    simp [sceneParts, edgesFor, mkMember, hvmap, hvm, hvm2]
  · rw [extract_mesh_data, hextract]
    show ([] ++ (sceneParts _ 0 0).2.2).map Prod.fst = _
    rw [List.nil_append]
    simp [sceneParts, supportsFor, mkSupport]
  · rw [create_plates_from_mesh_data, create_plates_eq]
    decide
  · have hkeys : ((create_plates_from_mesh_data ⟨[⟨⟨0, 0, 0⟩⟩, ⟨⟨1, 0, 0⟩⟩,
        ⟨⟨0, 1, 0⟩⟩], [⟨(0, 1)⟩], [⟨[0, 1, 2]⟩]⟩).map Prod.fst).Nodup := by
      rw [create_plates_from_mesh_data, create_plates_eq, platesFor_keys]
      simp
    rw [add_loads_eq_map _ _ hkeys]
    have hplates : create_plates_from_mesh_data ⟨[⟨⟨0, 0, 0⟩⟩, ⟨⟨1, 0, 0⟩⟩,
        ⟨⟨0, 1, 0⟩⟩], [⟨(0, 1)⟩], [⟨[0, 1, 2]⟩]⟩ =
        [(natToStr 1, mkPlate { nodes := some "1,2,3", thickness := some 0.39370078740157477, material_id := some 3 })] := by
      rw [create_plates_from_mesh_data, create_plates_eq]
      have hjoin : joinComma [natToStr 1, natToStr 2, natToStr 3] = "1,2,3" := by decide
      simp [platesFor, hjoin]
    rw [hplates]
    have hnodes : (mkPlate { nodes := some "1,2,3", thickness := some 0.39370078740157477, material_id := some 3 }).nodes = "1,2,3" := by
      simp [mkPlate]
    have hsplit : splitComma "1,2,3" = ["1", "2", "3"] := by decide
    have hs1 : strToNat "1" = 1 := by decide
    have hs2 : strToNat "2" = 2 := by decide
    have hs3 : strToNat "3" = 3 := by decide
    have hverts : plateVerts ⟨[⟨⟨0, 0, 0⟩⟩, ⟨⟨1, 0, 0⟩⟩, ⟨⟨0, 1, 0⟩⟩],
        [⟨(0, 1)⟩], [⟨[0, 1, 2]⟩]⟩ (mkPlate { nodes := some "1,2,3", thickness := some 0.39370078740157477, material_id := some 3 }) = [⟨0, 0, 0⟩, ⟨1, 0, 0⟩, ⟨0, 1, 0⟩] := by
      simp [plateVerts, hnodes, hsplit, hs1, hs2, hs3, List.getD]
    have hn : calculate_normal ((plateVerts ⟨[⟨⟨0, 0, 0⟩⟩, ⟨⟨1, 0, 0⟩⟩, ⟨⟨0, 1, 0⟩⟩],
        [⟨(0, 1)⟩], [⟨[0, 1, 2]⟩]⟩ (mkPlate { nodes := some "1,2,3", thickness := some 0.39370078740157477, material_id := some 3 })).take 3) = some ⟨0, 0, 1⟩ := by
      rw [hverts]
      show calculate_normal [⟨0, 0, 0⟩, ⟨1, 0, 0⟩, ⟨0, 1, 0⟩] = some ⟨0, 0, 1⟩
      simp only [calculate_normal, vsub, cross]
      norm_num [Real.sqrt_one]
    have hz : |(Vec3.mk 0 0 1).z| > 0.5 := by norm_num
    have hload : (plateLoad ⟨[⟨⟨0, 0, 0⟩⟩, ⟨⟨1, 0, 0⟩⟩, ⟨⟨0, 1, 0⟩⟩],
        [⟨(0, 1)⟩], [⟨[0, 1, 2]⟩]⟩ (mkPlate { nodes := some "1,2,3", thickness := some 0.39370078740157477, material_id := some 3 })).mag = 0.15 ∧
        (plateLoad ⟨[⟨⟨0, 0, 0⟩⟩, ⟨⟨1, 0, 0⟩⟩, ⟨⟨0, 1, 0⟩⟩],
        [⟨(0, 1)⟩], [⟨[0, 1, 2]⟩]⟩ (mkPlate { nodes := some "1,2,3", thickness := some 0.39370078740157477, material_id := some 3 })).direction = "Y" := by
      simp [plateLoad, hn, hz]
      norm_num
    simp only [List.map_cons, List.map_nil]
    rw [hload.1, hload.2]
    have h1 : natToStr 1 = "1" := by decide
    rw [h1]
